import Mathlib

/-!
# ToxiGuard client: store slices, form validation, theme and i18n

A shallow embedding of the pure parts of the ToxiGuard mobile client
(`src/store/slices/alertsSlice.js`, `src/services/alertService.js`,
`src/store/slices/uiSlice.js`, `src/screens/auth/RegisterScreen.js`,
`src/screens/settings/LanguageScreen.js`, `src/theme/index.js`,
`src/i18n/index.js`) together with theorems about them.

JavaScript values are embedded as `JsVal`, plain objects as association lists
keyed by property name, and reducers written against Immer drafts as functions
from the previous state to the next one.
-/

namespace ToxiGuard

/-! ## JavaScript values and objects -/

/-- Primitive JavaScript values. Numbers are abstracted to integers, with `nan`
standing for `NaN`. -/
inductive JsVal where
  | undefined
  | null
  | bool (b : Bool)
  | num (n : Int)
  | nan
  | str (s : String)
  deriving DecidableEq, Repr, Inhabited

namespace JsVal

/-- Truthiness, as tested by `if (v)`, `!v` and `v || d`. -/
def truthy : JsVal → Bool
  | undefined => false
  | null => false
  | bool b => b
  | num n => n != 0
  | nan => false
  | str s => s != ""

/-- Strict equality `a === b` on primitives: `NaN` is not equal to itself. -/
def strictEq : JsVal → JsVal → Bool
  | nan, _ => false
  | _, nan => false
  | a, b => decide (a = b)

end JsVal

/-- A JavaScript object used as a dictionary: own properties in insertion order. -/
abbrev Dict (α : Type) := List (String × α)

namespace Dict

variable {α : Type}

/-- Property read `d[k]`; `none` stands for `undefined` (no such property). -/
def get? (d : Dict α) (k : String) : Option α :=
  match d with
  | [] => none
  | (k', v) :: rest => if k' = k then some v else get? rest k

/-- Property write `d[k] = v`: overwrites an existing property in place,
otherwise adds the property at the end. -/
def set (d : Dict α) (k : String) (v : α) : Dict α :=
  match d with
  | [] => [(k, v)]
  | (k', v') :: rest => if k' = k then (k, v) :: rest else (k', v') :: set rest k v

/-- Own property names, `Object.keys(d)`. -/
def keys (d : Dict α) : List String := d.map Prod.fst

end Dict

/-- A plain object whose properties hold primitive values. -/
abbrev Obj := Dict JsVal

/-- Property read `o.k` on a plain object: `undefined` when the property is absent. -/
def Obj.get (o : Obj) (k : String) : JsVal := (Dict.get? o k).getD JsVal.undefined

/-- Object spread `{...target, ...source}`: the properties of `source` are written
onto `target` in order. -/
def Obj.assign (target source : Obj) : Obj :=
  source.foldl (fun o kv => Dict.set o kv.1 kv.2) target

/-! ## Alerts: `alertService.getChildAlerts` and the alerts slice -/

/-- A Firestore query document snapshot: `doc.id` and `doc.data()`. -/
structure Doc where
  id : String
  data : Obj
  deriving DecidableEq, Repr

/-- An alert as held in the store: the plain object built by `getChildAlerts`. -/
abbrev Alert := Obj

/-- The `id` of an alert, `alert.id`. -/
def Alert.id (a : Alert) : JsVal := Obj.get a "id"

/-- The object `{ id: doc.id, ...alertData, clipUrl }` pushed by `getChildAlerts`
for one document. `getDownloadURL` is the storage SDK call; `none` stands for a
rejected promise, which the source catches, leaving `clipUrl` at `null`. -/
def toAlert (getDownloadURL : JsVal → Option String) (doc : Doc) : Alert :=
  let alertData := doc.data
  let clipUrl : JsVal :=
    if (Obj.get alertData "clip_path").truthy then
      match getDownloadURL (Obj.get alertData "clip_path") with
      | some url => JsVal.str url
      | none => JsVal.null
    else JsVal.null
  Dict.set (Obj.assign [("id", JsVal.str doc.id)] alertData) "clipUrl" clipUrl

/-- The value `{ alerts, lastDoc }` returned by `getChildAlerts`. -/
structure AlertsPage where
  alerts : List Alert
  lastDoc : Option Doc
  deriving DecidableEq, Repr

/-- Body of `getChildAlerts` after `getDocs`: `docs` is `alertsSnapshot.docs`, and
`alertsSnapshot.empty` holds exactly when there is no document. -/
def getChildAlerts (getDownloadURL : JsVal → Option String) (docs : List Doc) : AlertsPage :=
  if docs.isEmpty then
    { alerts := [], lastDoc := none }
  else
    { alerts := docs.map (toAlert getDownloadURL), lastDoc := docs.getLast? }

/-- The argument `{ childId, lastDoc, pageSize }` of the `fetchAlerts` thunk, kept
as `action.meta.arg`. `lastDoc = none` stands for a missing or `null` cursor. -/
structure FetchAlertsArg where
  childId : String
  lastDoc : Option Doc
  pageSize : Option Nat
  deriving DecidableEq, Repr

/-- The payload `{ alerts, lastDoc, childId }` of `fetchAlerts.fulfilled`. -/
structure FetchAlertsPayload where
  alerts : List Alert
  lastDoc : Option Doc
  childId : String
  deriving DecidableEq, Repr

/-- Payload creator of the `fetchAlerts` thunk on its success path: the page
returned by `getChildAlerts` for the snapshot `docs`, tagged with the child id. -/
def fetchAlerts (getDownloadURL : JsVal → Option String) (arg : FetchAlertsArg)
    (docs : List Doc) : FetchAlertsPayload :=
  let page := getChildAlerts getDownloadURL docs
  { alerts := page.alerts, lastDoc := page.lastDoc, childId := arg.childId }

/-- State of the alerts slice. -/
structure AlertsState where
  alerts : Dict (List Alert)
  lastDocs : Dict (Option Doc)
  selectedAlertId : JsVal
  downloadedClips : Dict JsVal
  stats : Dict Obj
  status : String
  error : JsVal
  deriving DecidableEq, Repr

namespace AlertsState

/-- The `initialState` of the alerts slice. -/
def initialState : AlertsState :=
  { alerts := [], lastDocs := [], selectedAlertId := JsVal.null, downloadedClips := [],
    stats := [], status := "idle", error := JsVal.null }

/-- Selector `selectAlertsByChildId`: `state.alerts.alerts[childId] || []`. -/
def selectAlertsByChildId (state : AlertsState) (childId : String) : List Alert :=
  (Dict.get? state.alerts childId).getD []

/-- Case reducer for `fetchAlerts.fulfilled`. -/
def fetchAlertsFulfilled (state : AlertsState) (payload : FetchAlertsPayload)
    (arg : FetchAlertsArg) : AlertsState :=
  let state := { state with status := "succeeded" }
  let childId := payload.childId
  let state :=
    if (Dict.get? state.alerts childId).isNone then
      { state with alerts := Dict.set state.alerts childId [] }
    else state
  let state :=
    if arg.lastDoc.isNone then
      { state with alerts := Dict.set state.alerts childId payload.alerts }
    else
      let cached := (Dict.get? state.alerts childId).getD []
      let newAlerts := payload.alerts.filter
        (fun newAlert => !(cached.any (fun alert => JsVal.strictEq alert.id newAlert.id)))
      { state with alerts := Dict.set state.alerts childId (cached ++ newAlerts) }
  { state with lastDocs := Dict.set state.lastDocs childId payload.lastDoc }

/-- Case reducer for `fetchAlerts.rejected`; `payload` is the rejection value. -/
def fetchAlertsRejected (state : AlertsState) (payload : JsVal) : AlertsState :=
  { { state with status := "failed" } with error := payload }

end AlertsState

/-! ## JavaScript operators used by the ui slice -/

/-- The characters matched by `\s` (white space and line terminators); `\S` matches
every other character. -/
def isJsSpace (c : Char) : Bool :=
  c = '\t' || c = '\n' || c.val = 0x0B || c.val = 0x0C || c = '\r' || c = ' ' ||
  c.val = 0xA0 || c.val = 0x1680 || (0x2000 ≤ c.val && c.val ≤ 0x200A) ||
  c.val = 0x2028 || c.val = 0x2029 || c.val = 0x202F || c.val = 0x205F ||
  c.val = 0x3000 || c.val = 0xFEFF

/-- Value of a string of decimal digits, `none` when a character is not a digit. -/
def parseDigits (cs : List Char) : Option Nat :=
  cs.foldl (fun acc c =>
    match acc with
    | some n => if c.isDigit then some (n * 10 + (c.toNat - 48)) else none
    | none => none) (some 0)

namespace JsVal

/-- The abstract operation `ToNumber`. Within the integer abstraction a string
converts when, once trimmed, it is empty or an optionally signed run of decimal
digits; every other string converts to `NaN`. -/
def toNumber : JsVal → JsVal
  | undefined => nan
  | null => num 0
  | bool b => num (if b then 1 else 0)
  | num n => num n
  | nan => nan
  | str s =>
    let cs := ((s.toList.dropWhile isJsSpace).reverse.dropWhile isJsSpace).reverse
    match cs with
    | [] => num 0
    | '-' :: ds =>
      if ds.isEmpty then nan else
      match parseDigits ds with
      | some n => num (-(n : Int))
      | none => nan
    | '+' :: ds =>
      if ds.isEmpty then nan else
      match parseDigits ds with
      | some n => num (n : Int)
      | none => nan
    | ds =>
      match parseDigits ds with
      | some n => num (n : Int)
      | none => nan

/-- The abstract operation `ToString` on primitives. -/
def toJsString : JsVal → String
  | undefined => "undefined"
  | null => "null"
  | bool b => if b then "true" else "false"
  | num n => toString n
  | nan => "NaN"
  | str s => s

/-- The operator `a + b`: concatenation when an operand is a string, numeric
addition otherwise. -/
def add (a b : JsVal) : JsVal :=
  match a, b with
  | str s, _ => str (s ++ b.toJsString)
  | _, str t => str (a.toJsString ++ t)
  | _, _ =>
    match a.toNumber, b.toNumber with
    | num m, num n => num (m + n)
    | _, _ => nan

/-- The operator `a - b`. -/
def sub (a b : JsVal) : JsVal :=
  match a.toNumber, b.toNumber with
  | num m, num n => num (m - n)
  | _, _ => nan

/-- The call `Math.max(a, b)`. -/
def mathMax (a b : JsVal) : JsVal :=
  match a.toNumber, b.toNumber with
  | num m, num n => num (max m n)
  | _, _ => nan

end JsVal

/-! ## The ui slice (`uiSlice.js`) -/

/-- A Redux action `{ type, payload }`. -/
structure Action where
  type : JsVal
  payload : JsVal
  deriving DecidableEq, Repr

/-- Pieces of `s` between occurrences of `sep`, as `String.prototype.split` with a
one-character separator returns them, on character lists. -/
def splitChars (sep : Char) : List Char → List (List Char)
  | [] => [[]]
  | c :: cs =>
    if c = sep then [] :: splitChars sep cs
    else
      match splitChars sep cs with
      | [] => [[c]]
      | piece :: pieces => (c :: piece) :: pieces

/-- The call `s.split(sep)` for a one-character separator. -/
def jsSplit (s : String) (sep : Char) : List String :=
  (splitChars sep s.toList).map String.mk

namespace UiSlice

/-- The expression `Localization.locale.split('-')[0] || 'en'`, with the device
locale `Localization.locale` as argument. -/
def deviceLanguage (locale : String) : String :=
  match (jsSplit locale '-').head? with
  | some code => if code != "" then code else "en"
  | none => "en"

/-- The `initialState` of the ui slice for a given device locale. -/
def initialState (locale : String) : Obj :=
  [("theme", JsVal.str "light"),
   ("language", JsVal.str (deviceLanguage locale)),
   ("isLoading", JsVal.bool false),
   ("childMenuVisible", JsVal.bool false),
   ("currentScreen", JsVal.null),
   ("currentTab", JsVal.str "home"),
   ("toastMessage", JsVal.null),
   ("notificationCount", JsVal.num 0),
   ("isOnline", JsVal.bool true),
   ("drawerOpen", JsVal.bool false)]

/-- Case reducer `setTheme`: `state.theme = action.payload`. -/
def setTheme (state : Obj) (action : Action) : Obj :=
  Dict.set state "theme" action.payload

/-- Case reducer `toggleTheme`. -/
def toggleTheme (state : Obj) (_action : Action) : Obj :=
  Dict.set state "theme"
    (if JsVal.strictEq (Obj.get state "theme") (JsVal.str "light")
      then JsVal.str "dark" else JsVal.str "light")

/-- Case reducer `setLanguage`: `state.language = action.payload`. -/
def setLanguage (state : Obj) (action : Action) : Obj :=
  Dict.set state "language" action.payload

/-- Case reducer `setLoading`. -/
def setLoading (state : Obj) (action : Action) : Obj :=
  Dict.set state "isLoading" action.payload

/-- Case reducer `setChildMenuVisible`. -/
def setChildMenuVisible (state : Obj) (action : Action) : Obj :=
  Dict.set state "childMenuVisible" action.payload

/-- Case reducer `toggleChildMenu`. -/
def toggleChildMenu (state : Obj) (_action : Action) : Obj :=
  Dict.set state "childMenuVisible" (JsVal.bool (!(Obj.get state "childMenuVisible").truthy))

/-- Case reducer `setCurrentScreen`. -/
def setCurrentScreen (state : Obj) (action : Action) : Obj :=
  Dict.set state "currentScreen" action.payload

/-- Case reducer `setCurrentTab`. -/
def setCurrentTab (state : Obj) (action : Action) : Obj :=
  Dict.set state "currentTab" action.payload

/-- Case reducer `showToast`. -/
def showToast (state : Obj) (action : Action) : Obj :=
  Dict.set state "toastMessage" action.payload

/-- Case reducer `clearToast`. -/
def clearToast (state : Obj) (_action : Action) : Obj :=
  Dict.set state "toastMessage" JsVal.null

/-- Case reducer `setNotificationCount`. -/
def setNotificationCount (state : Obj) (action : Action) : Obj :=
  Dict.set state "notificationCount" action.payload

/-- Case reducer `incrementNotificationCount`: `state.notificationCount += 1`. -/
def incrementNotificationCount (state : Obj) (_action : Action) : Obj :=
  Dict.set state "notificationCount"
    (JsVal.add (Obj.get state "notificationCount") (JsVal.num 1))

/-- Case reducer `decrementNotificationCount`:
`Math.max(0, state.notificationCount - 1)`. -/
def decrementNotificationCount (state : Obj) (_action : Action) : Obj :=
  Dict.set state "notificationCount"
    (JsVal.mathMax (JsVal.num 0) (JsVal.sub (Obj.get state "notificationCount") (JsVal.num 1)))

/-- Case reducer `resetNotificationCount`. -/
def resetNotificationCount (state : Obj) (_action : Action) : Obj :=
  Dict.set state "notificationCount" (JsVal.num 0)

/-- Case reducer `setOnlineStatus`. -/
def setOnlineStatus (state : Obj) (action : Action) : Obj :=
  Dict.set state "isOnline" action.payload

/-- Case reducer `setDrawerOpen`. -/
def setDrawerOpen (state : Obj) (action : Action) : Obj :=
  Dict.set state "drawerOpen" action.payload

/-- Case reducer `toggleDrawer`. -/
def toggleDrawer (state : Obj) (_action : Action) : Obj :=
  Dict.set state "drawerOpen" (JsVal.bool (!(Obj.get state "drawerOpen").truthy))

/-- Case reducer `resetUiState`:
`{ ...initialState, theme: state.theme, language: state.language }`. -/
def resetUiState (locale : String) (state : Obj) (_action : Action) : Obj :=
  Dict.set (Dict.set (initialState locale) "theme" (Obj.get state "theme"))
    "language" (Obj.get state "language")

/-- The `reducers` field of the slice: case reducers by name, in source order. -/
def reducers (locale : String) : List (String × (Obj → Action → Obj)) :=
  [("setTheme", setTheme),
   ("toggleTheme", toggleTheme),
   ("setLanguage", setLanguage),
   ("setLoading", setLoading),
   ("setChildMenuVisible", setChildMenuVisible),
   ("toggleChildMenu", toggleChildMenu),
   ("setCurrentScreen", setCurrentScreen),
   ("setCurrentTab", setCurrentTab),
   ("showToast", showToast),
   ("clearToast", clearToast),
   ("setNotificationCount", setNotificationCount),
   ("incrementNotificationCount", incrementNotificationCount),
   ("decrementNotificationCount", decrementNotificationCount),
   ("resetNotificationCount", resetNotificationCount),
   ("setOnlineStatus", setOnlineStatus),
   ("setDrawerOpen", setDrawerOpen),
   ("toggleDrawer", toggleDrawer),
   ("resetUiState", resetUiState locale)]

/-- The action type `createSlice` gives the case reducer `key` of the slice
named `ui`. -/
def actionType (key : String) : String := "ui/" ++ key

/-- The action types the slice handles. -/
def actionTypes (locale : String) : List String :=
  (reducers locale).map (fun entry => actionType entry.1)

/-- The slice reducer built by `createSlice`: an `undefined` state (`none`) is
replaced by `initialState`; the case reducer whose type is `action.type` is
applied, and the state is returned as it is when there is none. -/
def uiReducer (locale : String) (state : Option Obj) (action : Action) : Obj :=
  let state := state.getD (initialState locale)
  match action.type with
  | JsVal.str type =>
    match (reducers locale).find? (fun entry => actionType entry.1 == type) with
    | some entry => entry.2 state action
    | none => state
  | _ => state

/-- Action creator `setTheme(payload)`. -/
def setThemeAction (payload : JsVal) : Action :=
  { type := JsVal.str (actionType "setTheme"), payload := payload }

/-- Action creator `setLanguage(payload)`. -/
def setLanguageAction (payload : JsVal) : Action :=
  { type := JsVal.str (actionType "setLanguage"), payload := payload }

/-- Selector `selectLanguage`, on the ui slice: `state.ui.language`. -/
def selectLanguage (ui : Obj) : JsVal := Obj.get ui "language"

/-- Selector `selectTheme`, on the ui slice: `state.ui.theme`. -/
def selectTheme (ui : Obj) : JsVal := Obj.get ui "theme"

end UiSlice

/-! ## Regular expressions, as far as `RegisterScreen` uses them -/

/-- Regular expressions over characters. -/
inductive Re where
  | nothing
  | eps
  | lit (c : Char)
  | nonSpace
  | anyChar
  | seq (a b : Re)
  | alt (a b : Re)
  | star (a : Re)
  deriving DecidableEq, Repr

namespace Re

/-- The quantifier `r+`. -/
def plus (r : Re) : Re := seq r (star r)

/-- Whether `r` matches the empty string. -/
def nullable : Re → Bool
  | nothing => false
  | eps => true
  | lit _ => false
  | nonSpace => false
  | anyChar => false
  | seq a b => nullable a && nullable b
  | alt a b => nullable a || nullable b
  | star _ => true

/-- Brzozowski derivative: `deriv c r` matches `w` exactly when `r` matches `c :: w`. -/
def deriv (c : Char) : Re → Re
  | nothing => nothing
  | eps => nothing
  | lit d => if c = d then eps else nothing
  | nonSpace => if isJsSpace c then nothing else eps
  | anyChar => eps
  | seq a b => if nullable a then alt (seq (deriv c a) b) (deriv c b) else seq (deriv c a) b
  | alt a b => alt (deriv c a) (deriv c b)
  | star a => seq (deriv c a) (star a)

/-- Whether `r` matches the whole of `cs`. -/
def fullMatch (r : Re) (cs : List Char) : Bool :=
  match cs with
  | [] => nullable r
  | c :: rest => fullMatch (deriv c r) rest

/-- What it means for a regular expression to match the whole of a string: the
declarative reading against which `fullMatch` is checked. -/
inductive Matches : Re → List Char → Prop where
  | eps : Matches eps []
  | lit (c : Char) : Matches (lit c) [c]
  | nonSpace (c : Char) : isJsSpace c = false → Matches nonSpace [c]
  | anyChar (c : Char) : Matches anyChar [c]
  | seq {a b : Re} {u v : List Char} : Matches a u → Matches b v → Matches (seq a b) (u ++ v)
  | altLeft {a b : Re} {u : List Char} : Matches a u → Matches (alt a b) u
  | altRight {a b : Re} {u : List Char} : Matches b u → Matches (alt a b) u
  | starNil {a : Re} : Matches (star a) []
  | starCons {a : Re} {u v : List Char} :
      Matches a u → Matches (star a) v → Matches (star a) (u ++ v)

/-- The call `r.test(s)` for a pattern without anchors: some substring of `s`
matches `r`. -/
def test (r : Re) (s : String) : Bool :=
  fullMatch (seq (star anyChar) (seq r (star anyChar))) s.toList

end Re

/-- Number of UTF-16 code units of a character. -/
def utf16Size (c : Char) : Nat := if c.val < 0x10000 then 1 else 2

/-- The property `s.length`: the number of UTF-16 code units of `s`. -/
def jsLength (s : String) : Nat := (s.toList.map utf16Size).sum

/-! ## `RegisterScreen`: form validation -/

namespace RegisterScreen

/-- The component state read and written by `validateForm`. -/
structure FormState where
  email : String
  password : String
  confirmPassword : String
  displayName : String
  emailError : String
  passwordError : String
  confirmPasswordError : String
  displayNameError : String
  deriving DecidableEq, Repr

/-- The argument `{ email, password, displayName }` given to the `register` thunk. -/
structure RegisterArg where
  email : String
  password : String
  displayName : String
  deriving DecidableEq, Repr

/-- The pattern `/\S+@\S+\.\S+/`. -/
def emailPattern : Re :=
  Re.seq (Re.plus Re.nonSpace)
    (Re.seq (Re.lit '@')
      (Re.seq (Re.plus Re.nonSpace)
        (Re.seq (Re.lit '.') (Re.plus Re.nonSpace))))

/-- The running result of `validateForm`: the local `isValid` and the component
state with the error messages set so far. -/
structure Validation where
  isValid : Bool
  form : FormState
  deriving DecidableEq, Repr

/-- The block `// Email validation` of `validateForm`. `t` is `i18n.t`. -/
def validateEmail (t : String → String) (v : Validation) : Validation :=
  if v.form.email = "" then
    { isValid := false, form := { v.form with emailError := t "common.requiredField" } }
  else if !(Re.test emailPattern v.form.email) then
    { isValid := false, form := { v.form with emailError := t "auth.invalidEmail" } }
  else v

/-- The block `// Name validation` of `validateForm`. -/
def validateName (t : String → String) (v : Validation) : Validation :=
  if v.form.displayName = "" then
    { isValid := false, form := { v.form with displayNameError := t "common.requiredField" } }
  else v

/-- The block `// Password validation` of `validateForm`. -/
def validatePassword (t : String → String) (v : Validation) : Validation :=
  if v.form.password = "" then
    { isValid := false, form := { v.form with passwordError := t "common.requiredField" } }
  else if jsLength v.form.password < 6 then
    { isValid := false, form := { v.form with passwordError := t "auth.passwordTooShort" } }
  else v

/-- The block `// Confirm password validation` of `validateForm`. -/
def validateConfirmPassword (t : String → String) (v : Validation) : Validation :=
  if v.form.confirmPassword = "" then
    { isValid := false,
      form := { v.form with confirmPasswordError := t "common.requiredField" } }
  else if v.form.password ≠ v.form.confirmPassword then
    { isValid := false,
      form := { v.form with confirmPasswordError := t "auth.passwordsDontMatch" } }
  else v

/-- The function `validateForm`: starting from `isValid = true`, its four blocks in
order; the result holds the value it returns and the error messages it leaves in
the component state. -/
def validateForm (t : String → String) (form : FormState) : Validation :=
  validateConfirmPassword t
    (validatePassword t
      (validateName t
        (validateEmail t { isValid := true, form := form })))

/-- The handler `handleRegister`: the arguments with which the `register` thunk is
dispatched, in order, and the component state afterwards. -/
def handleRegister (t : String → String) (form : FormState) :
    List RegisterArg × FormState :=
  let v := validateForm t form
  if v.isValid then
    ([{ email := form.email, password := form.password, displayName := form.displayName }],
      v.form)
  else ([], v.form)

end RegisterScreen

/-! ## `LanguageScreen`: applying and cancelling a language choice -/

/-- Codes of the `LANGUAGES` table of `i18n/constants.js`, in order. -/
def LANGUAGES : List String :=
  ["en", "es", "fr", "de", "zh", "ja", "ko", "ar", "pt", "ru", "hi"]

namespace LanguageScreen

/-- What a handler of the screen does, in order. -/
inductive Effect where
  | dispatch (action : Action)
  | i18nChangeLanguage (language : JsVal)
  | goBack
  deriving DecidableEq, Repr

/-- The values the component works with: `currentLanguage` from
`useSelector(selectLanguage)` and the local state `selectedLanguage`. -/
structure Screen where
  currentLanguage : JsVal
  selectedLanguage : JsVal
  deriving DecidableEq, Repr

/-- First render against the ui slice `ui`: `useState(currentLanguage)`. -/
def mount (ui : Obj) : Screen :=
  { currentLanguage := UiSlice.selectLanguage ui,
    selectedLanguage := UiSlice.selectLanguage ui }

/-- Pressing the radio button of the option with code `code`:
`setSelectedLanguage(item.code)`. -/
def pressOption (screen : Screen) (code : String) : Screen :=
  { screen with selectedLanguage := JsVal.str code }

/-- The handler `handleApplyLanguage`. The call `i18n.changeLanguage` belongs to
the i18n library; `changeLanguageReturns` tells whether it returns normally, and
when it throws the statements after it are not run. -/
def handleApplyLanguage (changeLanguageReturns : Bool) (screen : Screen) : List Effect :=
  if !(JsVal.strictEq screen.selectedLanguage screen.currentLanguage) then
    [Effect.dispatch (UiSlice.setLanguageAction screen.selectedLanguage),
     Effect.i18nChangeLanguage screen.selectedLanguage] ++
      (if changeLanguageReturns then [Effect.goBack] else [])
  else [Effect.goBack]

/-- The handler of the Cancel button: `() => navigation.goBack()`. -/
def handleCancel (_screen : Screen) : List Effect := [Effect.goBack]

/-- The actions dispatched to the store by a run of effects, in order. -/
def dispatched : List Effect → List Action
  | [] => []
  | Effect.dispatch action :: rest => action :: dispatched rest
  | _ :: rest => dispatched rest

/-- The ui slice of the store after the actions `actions` have been dispatched:
the root reducer hands every action to the slice reducer. -/
def dispatchAll (locale : String) (ui : Obj) (actions : List Action) : Obj :=
  actions.foldl (fun state action => UiSlice.uiReducer locale (some state) action) ui

end LanguageScreen

/-! ## Themes (`theme/index.js`) -/

namespace Theme

/-- A theme of the component library (`DefaultTheme`, `DarkTheme`): its colours
and its remaining properties. -/
structure PaperTheme where
  props : Obj
  colors : Obj
  deriving DecidableEq, Repr

/-- A theme object of the application. `props` holds the properties spread from
the library theme that the application does not overwrite. -/
structure AppTheme where
  props : Obj
  dark : Bool
  mode : String
  fonts : Obj
  roundness : Int
  colors : Obj
  animationScale : Int
  deriving DecidableEq, Repr

/-- The exported `colors` object, shared between the themes. -/
def colors : Obj :=
  [("primary", JsVal.str "#FF5722"),
   ("accent", JsVal.str "#03A9F4"),
   ("error", JsVal.str "#F44336"),
   ("warning", JsVal.str "#FFC107"),
   ("success", JsVal.str "#4CAF50"),
   ("info", JsVal.str "#2196F3"),
   ("low", JsVal.str "#4CAF50"),
   ("medium", JsVal.str "#FFC107"),
   ("high", JsVal.str "#F44336"),
   ("toxic", JsVal.str "#E53935"),
   ("grooming", JsVal.str "#8E24AA"),
   ("profanity", JsVal.str "#FF9800"),
   ("harassment", JsVal.str "#E53935"),
   ("hateSpeech", JsVal.str "#D32F2F"),
   ("threatOfViolence", JsVal.str "#C62828"),
   ("sexualContent", JsVal.str "#AD1457"),
   ("personalInfo", JsVal.str "#0288D1")]

/-- The constant `sharedColors`. -/
def sharedColors : Obj := colors

/-- Properties of a library theme that the application themes keep: all but
`dark`, `mode`, `fonts`, `roundness`, `colors` and `animation`. -/
def keptProps (paper : PaperTheme) : Obj :=
  paper.props.filter (fun kv =>
    !(["dark", "mode", "fonts", "roundness", "colors", "animation"].contains kv.1))

/-- The exported `lightTheme`. `fonts` is the value of `configureFonts(fontConfig)`. -/
def lightTheme (DefaultTheme : PaperTheme) (fonts : Obj) : AppTheme :=
  { props := keptProps DefaultTheme,
    dark := false,
    mode := "exact",
    fonts := fonts,
    roundness := 10,
    colors := Obj.assign (Obj.assign DefaultTheme.colors sharedColors)
      [("background", JsVal.str "#F5F5F5"),
       ("surface", JsVal.str "#FFFFFF"),
       ("text", JsVal.str "#212121"),
       ("disabled", JsVal.str "#9E9E9E"),
       ("placeholder", JsVal.str "#757575"),
       ("backdrop", JsVal.str "rgba(0, 0, 0, 0.5)"),
       ("notification", Obj.get sharedColors "primary"),
       ("card", JsVal.str "#FFFFFF"),
       ("border", JsVal.str "#E0E0E0"),
       ("cardBackground", JsVal.str "#FFFFFF"),
       ("divider", JsVal.str "#E0E0E0"),
       ("headerBackground", JsVal.str "#FFFFFF"),
       ("statusBar", JsVal.str "#E0E0E0"),
       ("tabBar", JsVal.str "#FFFFFF"),
       ("tabBarInactive", JsVal.str "#9E9E9E"),
       ("alertCardBackground", JsVal.str "#FFFFFF"),
       ("chartBackground", JsVal.str "#FFFFFF"),
       ("settingsItemBackground", JsVal.str "#FFFFFF"),
       ("inputBackground", JsVal.str "#F5F5F5"),
       ("inputBorder", JsVal.str "#E0E0E0"),
       ("gradientStart", JsVal.str "#FF5722"),
       ("gradientEnd", JsVal.str "#FF8A65")],
    animationScale := 1 }

/-- The exported `darkTheme`. -/
def darkTheme (DarkTheme : PaperTheme) (fonts : Obj) : AppTheme :=
  { props := keptProps DarkTheme,
    dark := true,
    mode := "exact",
    fonts := fonts,
    roundness := 10,
    colors := Obj.assign (Obj.assign DarkTheme.colors sharedColors)
      [("background", JsVal.str "#121212"),
       ("surface", JsVal.str "#1E1E1E"),
       ("text", JsVal.str "#FFFFFF"),
       ("disabled", JsVal.str "#757575"),
       ("placeholder", JsVal.str "#9E9E9E"),
       ("backdrop", JsVal.str "rgba(0, 0, 0, 0.7)"),
       ("notification", Obj.get sharedColors "primary"),
       ("card", JsVal.str "#1E1E1E"),
       ("border", JsVal.str "#333333"),
       ("cardBackground", JsVal.str "#1E1E1E"),
       ("divider", JsVal.str "#333333"),
       ("headerBackground", JsVal.str "#1E1E1E"),
       ("statusBar", JsVal.str "#000000"),
       ("tabBar", JsVal.str "#1E1E1E"),
       ("tabBarInactive", JsVal.str "#757575"),
       ("alertCardBackground", JsVal.str "#262626"),
       ("chartBackground", JsVal.str "#262626"),
       ("settingsItemBackground", JsVal.str "#262626"),
       ("inputBackground", JsVal.str "#262626"),
       ("inputBorder", JsVal.str "#333333"),
       ("gradientStart", JsVal.str "#FF5722"),
       ("gradientEnd", JsVal.str "#FF8A65")],
    animationScale := 1 }

/-- The function `getTheme`: a `switch` on `mode`, whose cases compare with `===`. -/
def getTheme (DefaultTheme DarkTheme : PaperTheme) (fonts : Obj) (mode : JsVal) : AppTheme :=
  if JsVal.strictEq mode (JsVal.str "dark") then darkTheme DarkTheme fonts
  else if JsVal.strictEq mode (JsVal.str "light") then lightTheme DefaultTheme fonts
  else if JsVal.strictEq mode (JsVal.str "system") then lightTheme DefaultTheme fonts
  else lightTheme DefaultTheme fonts

end Theme

/-! ## The i18n module (`i18n/index.js`) -/

namespace I18n

/-- What `setLanguage` and `getCurrentLanguage` work on: `i18n.locale`, the keys
of `i18n.translations`, and the items held by `AsyncStorage`. -/
structure Module where
  locale : String
  translations : List String
  storage : Dict String
  deriving DecidableEq, Repr

/-- The module once loaded: `new I18n({ en, es })` registers the tables `en`
and `es`, the library starts with the locale `en`, and `storage` is what the
device holds. -/
def load (storage : Dict String) : Module :=
  { locale := "en", translations := ["en", "es"], storage := storage }

/-- The function `setLanguage`: its return value and the module afterwards.
`setItemResolves` tells whether the promise of `AsyncStorage.setItem` resolves;
when it rejects the `catch` block returns `false`. -/
def setLanguage (setItemResolves : Bool) (m : Module) (locale : String) : Bool × Module :=
  if m.translations.contains locale then
    let m := { m with locale := locale }
    if setItemResolves then
      (true, { m with storage := Dict.set m.storage "userLanguage" locale })
    else (false, m)
  else (false, m)

/-- The function `getCurrentLanguage`: `i18n.locale`. -/
def getCurrentLanguage (m : Module) : String := m.locale

end I18n

/-! ## Language constants (`i18n/constants.js`) -/

/-- The constant `RTL_LANGUAGES`. -/
def RTL_LANGUAGES : List String := ["ar", "he", "fa", "ur"]

/-- The comparison `SameValueZero` used by `Array.prototype.includes`: like `===`,
except that `NaN` equals itself. -/
def JsVal.sameValueZero (a b : JsVal) : Bool := decide (a = b)

/-- The function `isRTL`: `RTL_LANGUAGES.includes(languageCode)`. -/
def isRTL (languageCode : JsVal) : Bool :=
  RTL_LANGUAGES.any (fun code => JsVal.sameValueZero (JsVal.str code) languageCode)

/-! ## Helper utilities (`utils/helpers.js`) -/

/-- A JavaScript string as the helpers see it: its sequence of UTF-16 code units. -/
abbrev JsString := List Nat

/-- The UTF-16 code units of a character. -/
def encodeUtf16 (c : Char) : JsString :=
  if c.toNat < 0x10000 then [c.toNat]
  else [0xD800 + (c.toNat - 0x10000) / 0x400, 0xDC00 + (c.toNat - 0x10000) % 0x400]

/-- The UTF-16 code units of a string literal. -/
def utf16 (s : String) : JsString :=
  s.toList.foldr (fun c units => encodeUtf16 c ++ units) []

/-- The code units matched by `\s`: white space and line terminators. -/
def isSpaceUnit (u : Nat) : Bool :=
  u = 0x09 || u = 0x0A || u = 0x0B || u = 0x0C || u = 0x0D || u = 0x20 ||
  u = 0xA0 || u = 0x1680 || (0x2000 ≤ u && u ≤ 0x200A) ||
  u = 0x2028 || u = 0x2029 || u = 0x202F || u = 0x205F ||
  u = 0x3000 || u = 0xFEFF

/-- The method `s.trim()`. -/
def jsTrim (s : JsString) : JsString :=
  ((s.dropWhile isSpaceUnit).reverse.dropWhile isSpaceUnit).reverse

/-- The call `s.split(sep)` for a separator of one code unit. -/
def splitUnits (sep : Nat) : JsString → List JsString
  | [] => [[]]
  | u :: us =>
    if u = sep then [] :: splitUnits sep us
    else
      match splitUnits sep us with
      | [] => [[u]]
      | piece :: pieces => (u :: piece) :: pieces

/-- The method `s.charAt(i)`: the code unit at `i` as a string, or the empty string. -/
def charAt (s : JsString) (i : Nat) : JsString :=
  match s.get? i with
  | some u => [u]
  | none => []

namespace Helpers

/-- The function `getChildInitials`. `toUpperCase` is the method
`String.prototype.toUpperCase` of the runtime; an empty `name` also stands for a
missing one. -/
def getChildInitials (toUpperCase : JsString → JsString) (name : JsString) : JsString :=
  if name.isEmpty then utf16 "?"
  else
    let nameParts := splitUnits 0x20 (jsTrim name)
    if nameParts.length = 1 then
      toUpperCase (charAt (nameParts.getD 0 []) 0)
    else
      toUpperCase (charAt (nameParts.getD 0 []) 0) ++
        toUpperCase (charAt (nameParts.getD (nameParts.length - 1) []) 0)

/-- The conversion `ToInt32`: the integer modulo `2^32`, read as a signed 32-bit
value. -/
def toInt32 (n : Int) : Int :=
  let m := n % 4294967296
  if m ≥ 2147483648 then m - 4294967296 else m

/-- The operator `a << k` on integers: both the operand and the result are taken
as signed 32-bit values. -/
def shiftLeft (a : Int) (k : Nat) : Int := toInt32 (toInt32 a * 2 ^ (k % 32))

/-- One round of the loop of `getColorFromString`:
`hash = str.charCodeAt(i) + ((hash << 5) - hash)`. -/
def hashStep (hash : Int) (charCode : Nat) : Int :=
  (charCode : Int) + (shiftLeft hash 5 - hash)

/-- The value of `hash` after the loop of `getColorFromString`. The arithmetic on
`hash` is that of integers, which the doubles of the runtime follow exactly below
`2^53`, that is for every string of fewer than four million code units. -/
def hashOf (str : JsString) : Int := str.foldl hashStep 0

/-- The local constant `colors` of `getColorFromString`: the avatar palette. -/
def avatarColors : List String :=
  ["#F44336", "#E91E63", "#9C27B0", "#673AB7",
   "#3F51B5", "#2196F3", "#03A9F4", "#00BCD4",
   "#009688", "#4CAF50", "#8BC34A", "#CDDC39",
   "#FFC107", "#FF9800", "#FF5722", "#795548"]

/-- The index `Math.abs(hash) % colors.length` computed by `getColorFromString`. -/
def colorIndex (str : JsString) : Nat := (hashOf str).natAbs % avatarColors.length

/-- The function `getColorFromString`; `none` stands for `undefined`, the value of
`colors[index]` for an index outside the palette. -/
def getColorFromString (str : JsString) : Option String :=
  if str.isEmpty then some "#FF5722"
  else avatarColors.get? (colorIndex str)

/-- The function `truncateText`, for a `length` that is a non-negative integer. -/
def truncateText (text : JsString) (length : Nat) : JsString :=
  if text.isEmpty then []
  else if text.length ≤ length then text
  else text.take length ++ utf16 "..."

/-- The call `Math.round(x)` on an exact value: the nearest integer, halves going
up. -/
def mathRound (x : ℚ) : Int := ⌊x + 1 / 2⌋

/-- The function `calculatePercentage` on integers, with the quotient taken
exactly. -/
def calculatePercentage (part total : Int) : Int :=
  if total = 0 then 0
  else mathRound (((part : ℚ) / (total : ℚ)) * 100)

end Helpers

/-! ## Helper utilities: file names and nested values -/

namespace Helpers

/-- The code units of the class `[/\\?%*:|"<>]`: slash, backslash, question mark,
percent, asterisk, colon, bar, double quote, less-than and greater-than. -/
def isUnsafeUnit (u : Nat) : Bool :=
  u = 0x2F || u = 0x5C || u = 0x3F || u = 0x25 || u = 0x2A || u = 0x3A ||
  u = 0x7C || u = 0x22 || u = 0x3C || u = 0x3E

/-- The call `.replace(/[/\\?%*:|"<>]/g, '_')`: every unsafe code unit becomes an
underscore. -/
def replaceUnsafe (s : JsString) : JsString :=
  s.map (fun u => if isUnsafeUnit u then 0x5F else u)

/-- The scan behind `.replace(/\s+/g, '_')`; `inRun` tells that the code unit before
was white space, whose run has already been replaced. -/
def replaceSpaceRunsFrom (inRun : Bool) : JsString → JsString
  | [] => []
  | u :: us =>
    if isSpaceUnit u then
      if inRun then replaceSpaceRunsFrom true us
      else 0x5F :: replaceSpaceRunsFrom true us
    else u :: replaceSpaceRunsFrom false us

/-- The call `.replace(/\s+/g, '_')`: every maximal run of white space becomes one
underscore. -/
def replaceSpaceRuns (s : JsString) : JsString := replaceSpaceRunsFrom false s

/-- The function `createSafeFilename`. `toLowerCase` is the method
`String.prototype.toLowerCase` of the runtime; an empty `str` also stands for a
missing one. -/
def createSafeFilename (toLowerCase : JsString → JsString) (str : JsString) : JsString :=
  if str.isEmpty then utf16 "file"
  else toLowerCase (replaceSpaceRuns (replaceUnsafe str))

/-- Whether a code unit is an upper-case ASCII letter. -/
def isUpperAscii (u : Nat) : Bool := 0x41 ≤ u && u ≤ 0x5A

/-- What the theorems about `createSafeFilename` use of `toLowerCase`: its result
has no upper-case ASCII letter, it brings in no unsafe character and no white
space, and it is empty only for the empty string. -/
structure LowerCaseLaws (toLowerCase : JsString → JsString) : Prop where
  no_upper : ∀ s u, u ∈ toLowerCase s → isUpperAscii u = false
  nothing_new : ∀ s u, u ∈ toLowerCase s →
    isUnsafeUnit u = true ∨ isSpaceUnit u = true → u ∈ s
  nonempty : ∀ s, s ≠ [] → toLowerCase s ≠ []

/-- The method `toLowerCase` as it acts on strings of ASCII characters. -/
def asciiToLowerCase (s : JsString) : JsString :=
  s.map (fun u => if isUpperAscii u then u + 0x20 else u)

/-- The method `toUpperCase` as it acts on one-letter strings made of an ASCII
letter or of the letter sharp s (`U+00DF`), whose upper case is `SS`. -/
def sampleToUpperCase (s : JsString) : JsString :=
  if s = [0xDF] then [0x53, 0x53]
  else s.map (fun u => if 0x61 ≤ u ∧ u ≤ 0x7A then u - 0x20 else u)

/-- JavaScript values with nesting: primitives, arrays and plain objects. -/
inductive JsValue where
  | undefined
  | null
  | bool (b : Bool)
  | num (n : Int)
  | nan
  | str (s : JsString)
  | arr (items : List JsValue)
  | obj (fields : List (JsString × JsValue))

namespace JsValue

/-- Truthiness of a value. -/
def truthy : JsValue → Bool
  | undefined => false
  | null => false
  | bool b => b
  | num n => n != 0
  | nan => false
  | str s => !s.isEmpty
  | arr _ => true
  | obj _ => true

/-- The test `v === undefined`. -/
def isUndefined : JsValue → Bool
  | undefined => true
  | _ => false

/-- The test `v === null || v === undefined`. -/
def isNullish : JsValue → Bool
  | undefined => true
  | null => true
  | _ => false

end JsValue

/-- The array index a property name denotes: the name is the decimal numeral, without
leading zeros, of the index. -/
def arrayIndex (key : JsString) : Option Nat :=
  match key with
  | [] => none
  | [0x30] => some 0
  | 0x30 :: _ => none
  | units =>
    units.foldl (fun acc u =>
      match acc with
      | some n => if 0x30 ≤ u ∧ u ≤ 0x39 then some (n * 10 + (u - 0x30)) else none
      | none => none) (some 0)

/-- The value of the own property `key` of `v`, as
`Object.prototype.hasOwnProperty.call(v, key)` finds it and `v[key]` reads it;
`none` when `v` has no such own property. Strings and arrays own `length` and their
indices, plain objects own their fields, other values own nothing. -/
def ownProperty (v : JsValue) (key : JsString) : Option JsValue :=
  match v with
  | JsValue.str s =>
    if key = utf16 "length" then some (JsValue.num s.length)
    else
      match arrayIndex key with
      | some i => (s.get? i).map (fun u => JsValue.str [u])
      | none => none
  | JsValue.arr items =>
    if key = utf16 "length" then some (JsValue.num items.length)
    else
      match arrayIndex key with
      | some i => items.get? i
      | none => none
  | JsValue.obj fields => (fields.find? (fun field => field.1 = key)).map Prod.snd
  | _ => none

/-- The loop of `getNestedValue` with what follows it: `current` is the value
reached so far and the list holds the keys still to follow. -/
def getNestedValueLoop (defaultValue : JsValue) : JsValue → List JsString → JsValue
  | current, [] => if current.isUndefined then defaultValue else current
  | current, key :: keys =>
    if current.isNullish then defaultValue
    else
      match ownProperty current key with
      | none => defaultValue
      | some next => getNestedValueLoop defaultValue next keys

/-- The function `getNestedValue`. A missing `path` is `none`; `defaultValue` is the
parameter after its default `null` has been applied. -/
def getNestedValue (obj : JsValue) (path : Option JsString) (defaultValue : JsValue) :
    JsValue :=
  match path with
  | none => defaultValue
  | some path =>
    if !obj.truthy || path.isEmpty then defaultValue
    else getNestedValueLoop defaultValue obj (splitUnits 0x2E path)

/-- The value reached from `v` by following `keys`, each of which has to be an own
property at its level; `none` when one is not. -/
def followKeys : JsValue → List JsString → Option JsValue
  | v, [] => some v
  | v, key :: keys =>
    match ownProperty v key with
    | none => none
    | some next => followKeys next keys

/-- The reading of `getNestedValue` that its description gives: the value reached
by following the keys of the path when every key is an own property at its level
and that value is not `undefined`, and the default in every other case. -/
def getNestedValueSpec (obj : JsValue) (path : Option JsString) (defaultValue : JsValue) :
    JsValue :=
  match path with
  | none => defaultValue
  | some path =>
    if path.isEmpty then defaultValue
    else
      match followKeys obj (splitUnits 0x2E path) with
      | some value => if value.isUndefined then defaultValue else value
      | none => defaultValue

end Helpers

/-! ## The alerts slice: alerts pushed to the device -/

/-- The method `findIndex`: the index of the first element that satisfies `p`;
`none` stands for `-1`. -/
def findIndex {α : Type} (p : α → Bool) : List α → Option Nat
  | [] => none
  | a :: rest => if p a then some 0 else (findIndex p rest).map (fun i => i + 1)

/-- Case reducer `receiveNewAlert`; `alert` is the property `alert` of the payload,
`none` when it is missing. The key under which the alert is filed is its `childId`
as a property name. -/
def AlertsState.receiveNewAlert (state : AlertsState) (alert : Option Alert) : AlertsState :=
  match alert with
  | none => state
  | some alert =>
    if (Obj.get alert "childId").truthy then
      let childId := (Obj.get alert "childId").toJsString
      let state :=
        if (Dict.get? state.alerts childId).isNone then
          { state with alerts := Dict.set state.alerts childId [] }
        else state
      let cached := (Dict.get? state.alerts childId).getD []
      match findIndex (fun a => JsVal.strictEq (Alert.id a) (Alert.id alert)) cached with
      | none => { state with alerts := Dict.set state.alerts childId (alert :: cached) }
      | some existingIndex =>
        { state with alerts := Dict.set state.alerts childId (cached.set existingIndex alert) }
    else state

/-! ## Child profiles (`services/childService.js`) -/

/-- Removal of the property `k` from a dictionary. -/
def Dict.erase {α : Type} (d : Dict α) (k : String) : Dict α :=
  d.filter (fun entry => entry.1 != k)

namespace ChildService

/-- The object handed to `updateDoc` by `updateChildProfile`:
`{ ...safeUpdateData, updatedAt: new Date() }`, where `safeUpdateData` holds the
properties of `updateData` other than `parentId`. `now` is the value of
`new Date()`. -/
def updateDocument (now : JsVal) (updateData : Obj) : Obj :=
  let safeUpdateData : Obj := updateData.filter (fun entry => entry.1 != "parentId")
  Dict.set (Obj.assign [] safeUpdateData) "updatedAt" now

/-- A call `updateDoc(doc(db, collection, id), data)`. -/
structure UpdateCall where
  collection : String
  id : String
  data : Obj
  deriving DecidableEq, Repr

/-- The function `updateChildProfile`: the call to `updateDoc` it issues. -/
def updateChildProfile (now : JsVal) (childId : String) (updateData : Obj) : UpdateCall :=
  { collection := "children", id := childId, data := updateDocument now updateData }

/-- A value stored in a document: a primitive, or a map of named values. -/
inductive FieldValue where
  | prim (value : JsVal)
  | map (fields : List (String × FieldValue))

/-- The fields of a stored document. -/
abbrev Document := Dict FieldValue

/-- The write of `value` at a field path, given by its segments: a path of one
segment names a field of the document; a longer path goes into the map held by
its first segment, and a first segment that holds no map gets a new one. -/
def setFieldPath : List String → Document → FieldValue → Document
  | [], document, _ => document
  | [field], document, value => Dict.set document field value
  | field :: rest, document, value =>
    let inner : Document :=
      match Dict.get? document field with
      | some (FieldValue.map fields) => fields
      | _ => []
    Dict.set document field (FieldValue.map (setFieldPath rest inner value))

/-- The effect of `updateDoc(ref, data)` on the fields of the document: every key
of `data` is a field path whose segments are separated by dots, as in the key
`settings.toxicCategories` that `updateToxicCategories` writes, and the value is
written at that path; the other fields are kept. -/
def applyUpdate (document : Document) (data : Obj) : Document :=
  data.foldl
    (fun document entry =>
      setFieldPath (jsSplit entry.1 '.') document (FieldValue.prim entry.2))
    document

/-- An element of the array `coParents` of a user document. -/
structure CoParentEntry where
  children : Option (List String)
  fields : Obj
  deriving DecidableEq, Repr

/-- A document of the collection `users`, as far as `deleteChildProfile` reads and
writes it; a field that is absent is `none`. -/
structure UserDoc where
  children : Option (List String)
  coParents : Option (List CoParentEntry)
  fields : Obj
  deriving DecidableEq, Repr

/-- A document of the collection `children`, as far as `deleteChildProfile` reads
it. -/
structure ChildDoc where
  parentId : JsVal
  coParentIds : Option (List String)
  fields : Obj
  deriving DecidableEq, Repr

/-- The two collections of the database that `deleteChildProfile` touches. -/
structure Firestore where
  children : Dict ChildDoc
  users : Dict UserDoc
  deriving DecidableEq, Repr

/-- A write issued to the database: `deleteDoc` on a document, or `updateDoc` of one
field of a document. -/
inductive Write where
  | deleteDoc (collection id : String)
  | updateDoc (collection id field : String)
  deriving DecidableEq, Repr

/-- How the promise returned by `deleteChildProfile` settles: resolved with a value,
rejected with an `Error` the function throws, or rejected by the database SDK with
an error code. -/
inductive Settled where
  | resolved (value : Bool)
  | thrown (message : String)
  | sdkError (code : String)
  deriving DecidableEq, Repr

/-- What a run of `deleteChildProfile` leaves: how it settles, the writes it
issued in order, and the database afterwards. -/
structure Outcome where
  result : Settled
  writes : List Write
  db : Firestore
  deriving DecidableEq, Repr

/-- The inner loop of `deleteChildProfile` over `coParentData.coParents`: the first
entry whose `children` include `childId` loses it, and the loop stops; `none` when
no entry includes `childId`, in which case nothing is written. -/
def removeFromCoParents (childId : String) : List CoParentEntry → Option (List CoParentEntry)
  | [] => none
  | coParent :: rest =>
    match coParent.children with
    | some children =>
      if children.contains childId then
        some ({ coParent with children := some (children.filter (fun id => id != childId)) }
          :: rest)
      else (removeFromCoParents childId rest).map (fun rest' => coParent :: rest')
    | none => (removeFromCoParents childId rest).map (fun rest' => coParent :: rest')

/-- One round of the loop of `deleteChildProfile` over `childData.coParentIds`. -/
def updateCoParent (childId : String) (acc : Firestore × List Write) (coParentId : String) :
    Firestore × List Write :=
  match Dict.get? acc.1.users coParentId with
  | none => acc
  | some coParentData =>
    match coParentData.coParents with
    | none => acc
    | some coParents =>
      match removeFromCoParents childId coParents with
      | none => acc
      | some coParents' =>
        ({ acc.1 with
            users := Dict.set acc.1.users coParentId
              { coParentData with coParents := some coParents' } },
          acc.2 ++ [Write.updateDoc "users" coParentId "coParents"])

/-- The function `deleteChildProfile` over a database in which reads and writes
go through. An `updateDoc` on a user document that does not exist is rejected by
the SDK with the code `not-found`. -/
def deleteChildProfile (db : Firestore) (userId childId : String) : Outcome :=
  match Dict.get? db.children childId with
  | none => { result := Settled.thrown "Child profile not found", writes := [], db := db }
  | some childData =>
    if !(JsVal.strictEq childData.parentId (JsVal.str userId)) then
      { result := Settled.thrown "You do not have permission to delete this profile",
        writes := [], db := db }
    else
      -- Delete the child document
      let db := { db with children := Dict.erase db.children childId }
      let writes := [Write.deleteDoc "children" childId]
      -- Remove child ID from user's children array
      match Dict.get? db.users userId with
      | none => { result := Settled.sdkError "not-found", writes := writes, db := db }
      | some userData =>
        let db := { db with
          users := Dict.set db.users userId
            { userData with
              children := some ((userData.children.getD []).filter (fun id => id != childId)) } }
        let writes := writes ++ [Write.updateDoc "users" userId "children"]
        -- Also remove from any co-parents' lists
        let acc :=
          match childData.coParentIds with
          | some coParentIds =>
            if coParentIds.length > 0 then
              coParentIds.foldl (updateCoParent childId) (db, writes)
            else (db, writes)
          | none => (db, writes)
        { result := Settled.resolved true, writes := acc.2, db := acc.1 }

end ChildService

/-! ## The children slice (`childrenSlice.js`) -/

/-- A child profile as held in the store. -/
abbrev Child := Obj

/-- The `id` of a child profile, `child.id`. -/
def Child.id (child : Child) : JsVal := Obj.get child "id"

/-- State of the children slice. -/
structure ChildrenState where
  children : List Child
  selectedChildId : JsVal
  status : String
  error : JsVal
  deriving DecidableEq, Repr

namespace ChildrenState

/-- The `initialState` of the children slice. -/
def initialState : ChildrenState :=
  { children := [], selectedChildId := JsVal.null, status := "idle", error := JsVal.null }

/-- Case reducer for `removeChild.fulfilled`; `payload` is the id of the removed
child. -/
def removeChildFulfilled (state : ChildrenState) (payload : JsVal) : ChildrenState :=
  let state := { state with status := "succeeded" }
  let state := { state with
    children := state.children.filter (fun child => !(JsVal.strictEq (Child.id child) payload)) }
  -- If the removed child was selected, select another one if available
  if JsVal.strictEq state.selectedChildId payload then
    { state with
      selectedChildId :=
        match state.children with
        | first :: _ => Child.id first
        | [] => JsVal.null }
  else state

end ChildrenState

/-! ## Dictionary lemmas -/

theorem Dict.get?_set_same {α : Type} (d : Dict α) (k : String) (v : α) :
    Dict.get? (Dict.set d k v) k = some v := by
  induction d with
  | nil => simp [Dict.set, Dict.get?]
  | cons hd tl ih =>
    obtain ⟨k', v'⟩ := hd
    by_cases h : k' = k
    · simp [Dict.set, Dict.get?, h]
    · simp [Dict.set, Dict.get?, h, ih]

theorem Dict.get?_set_other {α : Type} (d : Dict α) (k k' : String) (v : α) (h : k' ≠ k) :
    Dict.get? (Dict.set d k v) k' = Dict.get? d k' := by
  induction d with
  | nil =>
    have h' : ¬ k = k' := fun e => h e.symm
    simp [Dict.set, Dict.get?, h']
  | cons hd tl ih =>
    obtain ⟨k₁, v₁⟩ := hd
    by_cases h₁ : k₁ = k
    · subst h₁
      have h' : ¬ k₁ = k' := fun e => h e.symm
      simp [Dict.set, Dict.get?, h']
    · by_cases h₂ : k₁ = k'
      · subst h₂
        simp [Dict.set, Dict.get?, h]
      · simp [Dict.set, Dict.get?, h₁, h₂, ih]

/-! ## The alerts slice: page loads -/

theorem getChildAlerts_alerts_length (getDownloadURL : JsVal → Option String) (docs : List Doc) :
    (getChildAlerts getDownloadURL docs).alerts.length = docs.length := by
  cases docs with
  | nil => simp [getChildAlerts]
  | cons d ds => simp [getChildAlerts]

theorem getChildAlerts_empty_page (getDownloadURL : JsVal → Option String) (docs : List Doc)
    (h : (getChildAlerts getDownloadURL docs).alerts = []) :
    (getChildAlerts getDownloadURL docs).lastDoc = none := by
  cases docs with
  | nil => simp [getChildAlerts]
  | cons d ds => simp [getChildAlerts] at h

theorem fetchAlertsFulfilled_frame (state : AlertsState) (payload : FetchAlertsPayload)
    (arg : FetchAlertsArg) :
    let next := AlertsState.fetchAlertsFulfilled state payload arg
    next.status = "succeeded" ∧
    next.lastDocs = Dict.set state.lastDocs payload.childId payload.lastDoc ∧
    next.selectedAlertId = state.selectedAlertId ∧
    next.downloadedClips = state.downloadedClips ∧
    next.stats = state.stats ∧
    next.error = state.error := by
  simp only [AlertsState.fetchAlertsFulfilled]
  split_ifs <;> simp

theorem fetchAlertsFulfilled_alerts (state : AlertsState) (payload : FetchAlertsPayload)
    (arg : FetchAlertsArg) :
    (AlertsState.fetchAlertsFulfilled state payload arg).alerts =
      Dict.set
        (if (Dict.get? state.alerts payload.childId).isNone
          then Dict.set state.alerts payload.childId [] else state.alerts)
        payload.childId
        (if arg.lastDoc.isNone then payload.alerts
          else
            state.selectAlertsByChildId payload.childId ++
              payload.alerts.filter (fun newAlert =>
                !((state.selectAlertsByChildId payload.childId).any
                  (fun alert => JsVal.strictEq alert.id newAlert.id)))) := by
  simp only [AlertsState.fetchAlertsFulfilled, AlertsState.selectAlertsByChildId]
  split_ifs with h1 h2 <;> simp_all [Dict.get?_set_same]

theorem fetchAlertsFulfilled_alerts_other (state : AlertsState) (payload : FetchAlertsPayload)
    (arg : FetchAlertsArg) (c' : String) (hc : c' ≠ payload.childId) :
    Dict.get? (AlertsState.fetchAlertsFulfilled state payload arg).alerts c' =
      Dict.get? state.alerts c' := by
  rw [fetchAlertsFulfilled_alerts, Dict.get?_set_other _ _ _ _ hc]
  split_ifs
  · exact Dict.get?_set_other _ _ _ _ hc
  · rfl

/-- C1: reducing `fetchAlerts.fulfilled` for a request that carried no `lastDoc`
replaces the cached list of child `c` by the returned page `P`, stores the returned
cursor `d` for `c`, sets `status` to `succeeded`, and leaves the list and the cursor
of every other child id, and all other fields, as they were. -/
theorem fetchAlertsFulfilled_first_page (state : AlertsState) (c : String) (P : List Alert)
    (d : Option Doc) (pageSize : Option Nat) :
    let next := AlertsState.fetchAlertsFulfilled state
      { alerts := P, lastDoc := d, childId := c }
      { childId := c, lastDoc := none, pageSize := pageSize }
    Dict.get? next.alerts c = some P ∧
    Dict.get? next.lastDocs c = some d ∧
    next.status = "succeeded" ∧
    (∀ c', c' ≠ c →
      Dict.get? next.alerts c' = Dict.get? state.alerts c' ∧
      Dict.get? next.lastDocs c' = Dict.get? state.lastDocs c') ∧
    next.selectedAlertId = state.selectedAlertId ∧
    next.downloadedClips = state.downloadedClips ∧
    next.stats = state.stats ∧
    next.error = state.error := by
  intro next
  obtain ⟨hstatus, hdocs, hsel, hclips, hstats, herr⟩ :=
    fetchAlertsFulfilled_frame state { alerts := P, lastDoc := d, childId := c }
      { childId := c, lastDoc := none, pageSize := pageSize }
  refine ⟨?_, ?_, hstatus, ?_, hsel, hclips, hstats, herr⟩
  · show Dict.get? (AlertsState.fetchAlertsFulfilled _ _ _).alerts c = some P
    rw [fetchAlertsFulfilled_alerts]
    simp [Dict.get?_set_same]
  · show Dict.get? (AlertsState.fetchAlertsFulfilled _ _ _).lastDocs c = some d
    rw [hdocs]
    exact Dict.get?_set_same _ _ _
  · intro c' hc
    constructor
    · exact fetchAlertsFulfilled_alerts_other state _ _ c' hc
    · show Dict.get? (AlertsState.fetchAlertsFulfilled _ _ _).lastDocs c' = _
      rw [hdocs]
      exact Dict.get?_set_other _ _ _ _ hc

/-- Witness for C1: a first-page load for child `a` over a state that caches one
alert for `a` and one for `b`. -/
theorem fetchAlertsFulfilled_first_page_witness :
    Dict.get?
      (AlertsState.fetchAlertsFulfilled
        { AlertsState.initialState with
          alerts := [("a", [[("id", JsVal.str "x")]]), ("b", [[("id", JsVal.str "y")]])] }
        { alerts := [[("id", JsVal.str "z")]], lastDoc := none, childId := "a" }
        { childId := "a", lastDoc := none, pageSize := none }).alerts "b"
      = some [[("id", JsVal.str "y")]] :=
  ((fetchAlertsFulfilled_first_page
    { AlertsState.initialState with
      alerts := [("a", [[("id", JsVal.str "x")]]), ("b", [[("id", JsVal.str "y")]])] }
    "a" [[("id", JsVal.str "z")]] none none).2.2.2.1 "b" (by decide)).1

/-- C2: reducing `fetchAlerts.fulfilled` for a request that carried a cursor keeps
the cached list `L` of child `c` and appends to it those alerts of the page `P`, in
the order of `P`, whose `id` is not the `id` of an alert of `L`; the cursor of `c`
becomes the returned one. A page without alerts comes with the cursor `null`, so
it leaves the list at `L` and sets the cursor to `null`. -/
theorem fetchAlertsFulfilled_next_page (getDownloadURL : JsVal → Option String)
    (state : AlertsState) (c : String) (P : List Alert) (d : Option Doc) (cursor : Doc)
    (pageSize : Option Nat) :
    let L := state.selectAlertsByChildId c
    let arg : FetchAlertsArg := { childId := c, lastDoc := some cursor, pageSize := pageSize }
    let next := AlertsState.fetchAlertsFulfilled state
      { alerts := P, lastDoc := d, childId := c } arg
    let emptyNext := AlertsState.fetchAlertsFulfilled state (fetchAlerts getDownloadURL arg []) arg
    Dict.get? next.alerts c =
      some (L ++ P.filter (fun p => !(L.any (fun l => JsVal.strictEq l.id p.id)))) ∧
    Dict.get? next.lastDocs c = some d ∧
    (∀ docs, (getChildAlerts getDownloadURL docs).alerts = [] →
      (getChildAlerts getDownloadURL docs).lastDoc = none) ∧
    Dict.get? emptyNext.alerts c = some L ∧
    Dict.get? emptyNext.lastDocs c = some none := by
  intro L arg next emptyNext
  have key : ∀ payload : FetchAlertsPayload, payload.childId = c →
      Dict.get? (AlertsState.fetchAlertsFulfilled state payload arg).alerts c =
        some (L ++ payload.alerts.filter (fun p => !(L.any (fun l => JsVal.strictEq l.id p.id)))) ∧
      Dict.get? (AlertsState.fetchAlertsFulfilled state payload arg).lastDocs c =
        some payload.lastDoc := by
    intro payload hp
    subst hp
    constructor
    · rw [fetchAlertsFulfilled_alerts, Dict.get?_set_same]
      simp [arg, L]
    · rw [(fetchAlertsFulfilled_frame state payload arg).2.1]
      exact Dict.get?_set_same _ _ _
  refine ⟨(key _ rfl).1, (key _ rfl).2, ?_, ?_, ?_⟩
  · intro docs h
    exact getChildAlerts_empty_page getDownloadURL docs h
  · have h := (key (fetchAlerts getDownloadURL arg []) rfl).1
    simpa [fetchAlerts, getChildAlerts] using h
  · have h := (key (fetchAlerts getDownloadURL arg []) rfl).2
    simpa [fetchAlerts, getChildAlerts] using h

/-- Witness for C2: an empty snapshot yields a page without alerts, whose cursor
is `null`. -/
theorem fetchAlertsFulfilled_next_page_witness :
    (getChildAlerts (fun _ => none) []).lastDoc = none :=
  (fetchAlertsFulfilled_next_page (fun _ => none) AlertsState.initialState "a" [] none
    { id := "k", data := [] } none).2.2.1 [] (by decide)

/-- C5: reducing `fetchAlerts.rejected` with payload `m` sets `status` to `failed`
and `error` to `m`, and leaves `alerts`, `lastDocs`, `selectedAlertId`,
`downloadedClips` and `stats` as they were. -/
theorem fetchAlertsRejected_keeps_cache (state : AlertsState) (m : JsVal) :
    let next := AlertsState.fetchAlertsRejected state m
    next.status = "failed" ∧ next.error = m ∧
    next.alerts = state.alerts ∧ next.lastDocs = state.lastDocs ∧
    next.selectedAlertId = state.selectedAlertId ∧
    next.downloadedClips = state.downloadedClips ∧
    next.stats = state.stats := by
  simp [AlertsState.fetchAlertsRejected]

/-! ## Regular expressions: the matcher against its declarative reading -/

namespace Re

theorem Matches.nil_nullable {r : Re} {w : List Char} (h : Matches r w) :
    w = [] → nullable r = true := by
  induction h with
  | eps => intro _; rfl
  | lit c => intro h; cases h
  | nonSpace c _ => intro h; cases h
  | anyChar c => intro h; cases h
  | seq _ _ iha ihb =>
    intro h
    obtain ⟨hu, hv⟩ := List.append_eq_nil.mp h
    simp [nullable, iha hu, ihb hv]
  | altLeft _ ih => intro h; simp [nullable, ih h]
  | altRight _ ih => intro h; simp [nullable, ih h]
  | starNil => intro _; rfl
  | starCons _ _ _ _ => intro _; rfl

theorem nullable_matches (r : Re) : nullable r = true → Matches r [] := by
  induction r with
  | nothing => intro h; simp [nullable] at h
  | eps => intro _; exact Matches.eps
  | lit c => intro h; simp [nullable] at h
  | nonSpace => intro h; simp [nullable] at h
  | anyChar => intro h; simp [nullable] at h
  | seq a b iha ihb =>
    intro h
    simp only [nullable, Bool.and_eq_true] at h
    exact Matches.seq (iha h.1) (ihb h.2)
  | alt a b iha ihb =>
    intro h
    simp only [nullable, Bool.or_eq_true] at h
    rcases h with h | h
    · exact Matches.altLeft (iha h)
    · exact Matches.altRight (ihb h)
  | star a _ => intro _; exact Matches.starNil

theorem nullable_iff (r : Re) : nullable r = true ↔ Matches r [] :=
  ⟨nullable_matches r, fun h => h.nil_nullable rfl⟩

theorem Matches.deriv_of_cons {r : Re} {w' : List Char} (h : Matches r w') :
    ∀ (c : Char) (w : List Char), w' = c :: w → Matches (deriv c r) w := by
  induction h with
  | eps => intro c w h; cases h
  | lit d =>
    intro c w h
    injection h with h1 h2
    subst h1; subst h2
    simp only [deriv, if_true]
    exact Matches.eps
  | nonSpace d hd =>
    intro c w h
    injection h with h1 h2
    subst h1; subst h2
    simp only [deriv, hd]
    exact Matches.eps
  | anyChar d =>
    intro c w h
    injection h with h1 h2
    subst h2
    exact Matches.eps
  | @seq a b u v ha hb iha ihb =>
    intro c w h
    cases u with
    | nil =>
      have hn : nullable a = true := ha.nil_nullable rfl
      simp only [deriv, hn, if_true]
      exact Matches.altRight (ihb c w h)
    | cons x u' =>
      injection h with h1 h2
      subst h1; subst h2
      have hseq : Matches (Re.seq (deriv x a) b) (u' ++ v) := Matches.seq (iha x u' rfl) hb
      by_cases hn : nullable a = true
      · simp only [deriv, hn, if_true]
        exact Matches.altLeft hseq
      · simp only [deriv, hn]
        exact hseq
  | altLeft _ ih => intro c w h; exact Matches.altLeft (ih c w h)
  | altRight _ ih => intro c w h; exact Matches.altRight (ih c w h)
  | starNil => intro c w h; cases h
  | @starCons a u v ha hs iha ihs =>
    intro c w h
    cases u with
    | nil => exact ihs c w h
    | cons x u' =>
      injection h with h1 h2
      subst h1; subst h2
      exact Matches.seq (iha x u' rfl) hs

theorem matches_of_deriv (c : Char) (r : Re) :
    ∀ w, Matches (deriv c r) w → Matches r (c :: w) := by
  induction r with
  | nothing => intro w h; cases h
  | eps => intro w h; cases h
  | lit d =>
    intro w h
    by_cases hc : c = d
    · subst hc
      simp only [deriv, if_true] at h
      cases h
      exact Matches.lit c
    · simp only [deriv, hc, if_false] at h
      cases h
  | nonSpace =>
    intro w h
    cases hs : isJsSpace c with
    | true =>
      simp only [deriv, hs, if_true] at h
      cases h
    | false =>
      simp only [deriv, hs] at h
      cases h
      exact Matches.nonSpace c hs
  | anyChar =>
    intro w h
    cases h
    exact Matches.anyChar c
  | seq a b iha ihb =>
    intro w h
    have fromSeq : ∀ w, Matches (Re.seq (deriv c a) b) w → Matches (Re.seq a b) (c :: w) := by
      intro w h
      cases h with
      | seq hu hv => exact Matches.seq (iha _ hu) hv
    by_cases hn : nullable a = true
    · simp only [deriv, hn, if_true] at h
      cases h with
      | altLeft h => exact fromSeq w h
      | altRight h => exact Matches.seq (nullable_matches a hn) (ihb w h)
    · simp only [deriv, hn] at h
      exact fromSeq w h
  | alt a b iha ihb =>
    intro w h
    cases h with
    | altLeft h => exact Matches.altLeft (iha w h)
    | altRight h => exact Matches.altRight (ihb w h)
  | star a iha =>
    intro w h
    cases h with
    | seq hu hv => exact Matches.starCons (iha _ hu) hv

theorem fullMatch_iff (r : Re) (cs : List Char) : fullMatch r cs = true ↔ Matches r cs := by
  induction cs generalizing r with
  | nil => exact nullable_iff r
  | cons c rest ih =>
    simp only [fullMatch]
    rw [ih]
    exact ⟨matches_of_deriv c r rest, fun h => h.deriv_of_cons c rest rfl⟩

theorem matches_seq_iff (a b : Re) (w : List Char) :
    Matches (seq a b) w ↔ ∃ u v, w = u ++ v ∧ Matches a u ∧ Matches b v := by
  constructor
  · intro h
    cases h with
    | seq hu hv => exact ⟨_, _, rfl, hu, hv⟩
  · rintro ⟨u, v, rfl, hu, hv⟩
    exact Matches.seq hu hv

theorem matches_lit_iff (c : Char) (w : List Char) : Matches (lit c) w ↔ w = [c] := by
  constructor
  · intro h
    cases h
    rfl
  · rintro rfl
    exact Matches.lit c

theorem matches_star_anyChar (w : List Char) : Matches (star anyChar) w := by
  induction w with
  | nil => exact Matches.starNil
  | cons c rest ih => exact Matches.starCons (Matches.anyChar c) ih

theorem Matches.star_nonSpace_all {r : Re} {w : List Char} (h : Matches r w) :
    r = Re.star Re.nonSpace → ∀ c ∈ w, isJsSpace c = false := by
  induction h with
  | eps => intro hr; cases hr
  | lit c => intro hr; cases hr
  | nonSpace c _ => intro hr; cases hr
  | anyChar c => intro hr; cases hr
  | seq _ _ _ _ => intro hr; cases hr
  | altLeft _ _ => intro hr; cases hr
  | altRight _ _ => intro hr; cases hr
  | starNil => intro _ c hc; cases hc
  | @starCons a u v ha _ _ ihs =>
    intro hr c hc
    injection hr with ha'
    subst ha'
    rcases List.mem_append.mp hc with hcu | hcv
    · cases ha with
      | nonSpace d hd =>
        rw [List.mem_singleton] at hcu
        rw [hcu]
        exact hd
    · exact ihs rfl c hcv

theorem matches_star_nonSpace_iff (w : List Char) :
    Matches (star nonSpace) w ↔ ∀ c ∈ w, isJsSpace c = false := by
  constructor
  · intro h
    exact h.star_nonSpace_all rfl
  · intro h
    induction w with
    | nil => exact Matches.starNil
    | cons c rest ih =>
      exact Matches.starCons (Matches.nonSpace c (h c (List.mem_cons_self c rest)))
        (ih (fun d hd => h d (List.mem_cons_of_mem c hd)))

theorem matches_plus_nonSpace_iff (w : List Char) :
    Matches (plus nonSpace) w ↔ w ≠ [] ∧ ∀ c ∈ w, isJsSpace c = false := by
  unfold plus
  rw [matches_seq_iff]
  constructor
  · rintro ⟨u, v, rfl, hu, hv⟩
    cases hu with
    | nonSpace c hc =>
      refine ⟨by simp, fun d hd => ?_⟩
      rcases List.mem_append.mp hd with h | h
      · rw [List.mem_singleton] at h
        rw [h]
        exact hc
      · exact (matches_star_nonSpace_iff v).mp hv d h
  · rintro ⟨hne, hall⟩
    cases w with
    | nil => exact absurd rfl hne
    | cons c rest =>
      exact ⟨[c], rest, rfl, Matches.nonSpace c (hall c (List.mem_cons_self c rest)),
        (matches_star_nonSpace_iff rest).mpr (fun d hd => hall d (List.mem_cons_of_mem c hd))⟩

theorem test_iff (r : Re) (s : String) :
    test r s = true ↔ ∃ pre mid post, s.toList = pre ++ mid ++ post ∧ Matches r mid := by
  unfold test
  rw [fullMatch_iff, matches_seq_iff]
  constructor
  · rintro ⟨pre, rest, hs, -, hrest⟩
    obtain ⟨mid, post, hrest', hmid, -⟩ := (matches_seq_iff _ _ _).mp hrest
    exact ⟨pre, mid, post, by rw [hs, hrest', List.append_assoc], hmid⟩
  · rintro ⟨pre, mid, post, hs, hmid⟩
    exact ⟨pre, mid ++ post, by rw [hs, List.append_assoc], matches_star_anyChar pre,
      (matches_seq_iff _ _ _).mpr ⟨mid, post, rfl, hmid, matches_star_anyChar post⟩⟩

end Re

/-! ## Registration form -/

namespace RegisterScreen

theorem validateEmail_spec (t : String → String) (v : Validation) :
    (validateEmail t v).isValid =
      (v.isValid && decide (v.form.email ≠ "") && Re.test emailPattern v.form.email) ∧
    (validateEmail t v).form.displayName = v.form.displayName ∧
    (validateEmail t v).form.password = v.form.password ∧
    (validateEmail t v).form.confirmPassword = v.form.confirmPassword := by
  unfold validateEmail
  split_ifs with h1 h2 <;> simp_all

theorem validateName_spec (t : String → String) (v : Validation) :
    (validateName t v).isValid = (v.isValid && decide (v.form.displayName ≠ "")) ∧
    (validateName t v).form.password = v.form.password ∧
    (validateName t v).form.confirmPassword = v.form.confirmPassword := by
  unfold validateName
  split_ifs with h1 <;> simp_all

theorem validatePassword_spec (t : String → String) (v : Validation) :
    (validatePassword t v).isValid =
      (v.isValid && decide (v.form.password ≠ "") && decide (6 ≤ jsLength v.form.password)) ∧
    (validatePassword t v).form.password = v.form.password ∧
    (validatePassword t v).form.confirmPassword = v.form.confirmPassword := by
  unfold validatePassword
  split_ifs with h1 h2 <;> simp_all

theorem validateConfirmPassword_spec (t : String → String) (v : Validation) :
    (validateConfirmPassword t v).isValid =
      (v.isValid && decide (v.form.confirmPassword ≠ "") &&
        decide (v.form.password = v.form.confirmPassword)) := by
  unfold validateConfirmPassword
  split_ifs with h1 h2 <;> simp_all

theorem validateForm_isValid (t : String → String) (form : FormState) :
    (validateForm t form).isValid =
      (decide (form.email ≠ "") && Re.test emailPattern form.email &&
       decide (form.displayName ≠ "") &&
       decide (form.password ≠ "") && decide (6 ≤ jsLength form.password) &&
       decide (form.confirmPassword ≠ "") && decide (form.password = form.confirmPassword)) := by
  unfold validateForm
  obtain ⟨e1, e2, e3, e4⟩ := validateEmail_spec t { isValid := true, form := form }
  obtain ⟨n1, n2, n3⟩ := validateName_spec t (validateEmail t { isValid := true, form := form })
  obtain ⟨p1, p2, p3⟩ := validatePassword_spec t
    (validateName t (validateEmail t { isValid := true, form := form }))
  rw [validateConfirmPassword_spec, p1, p2, p3, n1, n2, n3, e1, e2, e3, e4]
  simp

theorem test_emailPattern_iff (s : String) :
    Re.test emailPattern s = true ↔
      ∃ pre u v w post, s.toList = pre ++ (u ++ '@' :: (v ++ '.' :: w)) ++ post ∧
        (u ≠ [] ∧ ∀ c ∈ u, isJsSpace c = false) ∧
        (v ≠ [] ∧ ∀ c ∈ v, isJsSpace c = false) ∧
        (w ≠ [] ∧ ∀ c ∈ w, isJsSpace c = false) := by
  rw [Re.test_iff]
  unfold emailPattern
  constructor
  · rintro ⟨pre, mid, post, hs, hmid⟩
    obtain ⟨u, r1, rfl, hu, h1⟩ := (Re.matches_seq_iff _ _ _).mp hmid
    obtain ⟨a, r2, rfl, ha, h2⟩ := (Re.matches_seq_iff _ _ _).mp h1
    obtain ⟨v, r3, rfl, hv, h3⟩ := (Re.matches_seq_iff _ _ _).mp h2
    obtain ⟨d, w, rfl, hd, hw⟩ := (Re.matches_seq_iff _ _ _).mp h3
    rw [Re.matches_lit_iff] at ha hd
    subst ha; subst hd
    exact ⟨pre, u, v, w, post, by simpa using hs,
      (Re.matches_plus_nonSpace_iff u).mp hu, (Re.matches_plus_nonSpace_iff v).mp hv,
      (Re.matches_plus_nonSpace_iff w).mp hw⟩
  · rintro ⟨pre, u, v, w, post, hs, hu, hv, hw⟩
    refine ⟨pre, u ++ '@' :: (v ++ '.' :: w), post, hs, ?_⟩
    refine (Re.matches_seq_iff _ _ _).mpr ⟨u, _, rfl, (Re.matches_plus_nonSpace_iff u).mpr hu, ?_⟩
    refine (Re.matches_seq_iff _ _ _).mpr ⟨['@'], _, rfl, Re.Matches.lit '@', ?_⟩
    refine (Re.matches_seq_iff _ _ _).mpr ⟨v, _, rfl, (Re.matches_plus_nonSpace_iff v).mpr hv, ?_⟩
    exact (Re.matches_seq_iff _ _ _).mpr ⟨['.'], w, rfl, Re.Matches.lit '.',
      (Re.matches_plus_nonSpace_iff w).mpr hw⟩

/-- C3: `handleRegister` dispatches the `register` thunk, once and with the form's
email, password and display name, exactly when the email is non-empty and matches
`/\S+@\S+\.\S+/`, the display name is non-empty, the password has a `length` of at
least 6, and the confirmation is non-empty and equal to the password; in every
other case it dispatches nothing. Matching the pattern means that the email
contains a non-empty run without white space, then `@`, then such a run, then `.`,
then such a run. -/
theorem handleRegister_dispatches_iff (t : String → String) (form : RegisterScreen.FormState) :
    let valid := form.email ≠ "" ∧ Re.test RegisterScreen.emailPattern form.email = true ∧
      form.displayName ≠ "" ∧ 6 ≤ jsLength form.password ∧
      form.confirmPassword ≠ "" ∧ form.confirmPassword = form.password
    ((RegisterScreen.handleRegister t form).1 =
        [{ email := form.email, password := form.password, displayName := form.displayName }]
      ↔ valid) ∧
    ((RegisterScreen.handleRegister t form).1 = [] ↔ ¬ valid) ∧
    (Re.test RegisterScreen.emailPattern form.email = true ↔
      ∃ pre u v w post, form.email.toList = pre ++ (u ++ '@' :: (v ++ '.' :: w)) ++ post ∧
        (u ≠ [] ∧ ∀ c ∈ u, isJsSpace c = false) ∧
        (v ≠ [] ∧ ∀ c ∈ v, isJsSpace c = false) ∧
        (w ≠ [] ∧ ∀ c ∈ w, isJsSpace c = false)) := by
  intro valid
  refine (and_assoc.mp ⟨?_, test_emailPattern_iff form.email⟩)
  have hlen : 6 ≤ jsLength form.password → form.password ≠ "" := by
    intro h he; rw [he] at h; revert h; decide
  have hv : (validateForm t form).isValid = true ↔ valid := by
    rw [validateForm_isValid]
    simp only [valid, Bool.and_eq_true, decide_eq_true_eq]
    constructor
    · rintro ⟨⟨⟨⟨⟨⟨a, b⟩, c⟩, -⟩, d⟩, e⟩, f⟩
      exact ⟨a, b, c, d, e, f.symm⟩
    · rintro ⟨a, b, c, d, e, f⟩
      exact ⟨⟨⟨⟨⟨⟨a, b⟩, c⟩, hlen d⟩, d⟩, e⟩, f.symm⟩
  have hr : (handleRegister t form).1 =
      if (validateForm t form).isValid = true then
        [{ email := form.email, password := form.password, displayName := form.displayName }]
      else [] := by
    unfold handleRegister
    cases h : (validateForm t form).isValid <;> simp [h]
  rw [hr]
  by_cases hvalid : valid
  · rw [if_pos (hv.mpr hvalid)]
    exact ⟨⟨fun _ => hvalid, fun _ => rfl⟩, ⟨fun h => by simp at h, fun h => absurd hvalid h⟩⟩
  · rw [if_neg (fun h => hvalid (hv.mp h))]
    exact ⟨⟨fun h => by simp at h, fun h => absurd h hvalid⟩, ⟨fun _ => hvalid, fun _ => rfl⟩⟩
end RegisterScreen

/-! ## The ui slice -/

theorem JsVal.strictEq_str (s : String) (v : JsVal) :
    JsVal.strictEq (JsVal.str s) v = decide (JsVal.str s = v) := by
  cases v <;> simp [JsVal.strictEq]

namespace UiSlice

theorem uiReducer_setLanguage (locale : String) (state : Obj) (p : JsVal) :
    uiReducer locale (some state) (setLanguageAction p) = Dict.set state "language" p := by
  rfl

theorem uiReducer_setTheme (locale : String) (state : Obj) (p : JsVal) :
    uiReducer locale (some state) (setThemeAction p) = Dict.set state "theme" p := by
  rfl

theorem uiReducer_unhandled (locale : String) (state : Option Obj) (action : Action)
    (h : action.type ∉ (actionTypes locale).map JsVal.str) :
    uiReducer locale state action = state.getD (initialState locale) := by
  unfold uiReducer
  cases hty : action.type with
  | str type =>
    have hnone : (reducers locale).find? (fun entry => actionType entry.1 == type) = none := by
      rw [List.find?_eq_none]
      intro entry hentry heq
      apply h
      rw [hty]
      simp only [actionTypes, List.map_map, List.mem_map]
      refine ⟨entry, hentry, ?_⟩
      simp only [Function.comp]
      rw [beq_iff_eq] at heq
      rw [heq]
    simp only [hnone]
  | _ => rfl

theorem splitChars_head (sep : Char) (cs : List Char) :
    (splitChars sep cs).head? = some (cs.takeWhile (fun c => c != sep)) := by
  induction cs with
  | nil => rfl
  | cons c rest ih =>
    unfold splitChars
    by_cases h : c = sep
    · simp [h]
    · cases hs : splitChars sep rest with
      | nil => rw [hs] at ih; simp at ih
      | cons piece pieces =>
        rw [hs] at ih
        simp only [List.head?_cons, Option.some.injEq] at ih
        simp [h, ih]

theorem deviceLanguage_eq (locale : String) :
    deviceLanguage locale =
      (if locale.toList.takeWhile (fun c => c != '-') = [] then "en"
        else String.mk (locale.toList.takeWhile (fun c => c != '-'))) := by
  unfold deviceLanguage jsSplit
  rw [List.head?_map, splitChars_head]
  simp only [Option.map_some']
  generalize locale.toList.takeWhile (fun c => c != '-') = part
  cases part with
  | nil => rfl
  | cons c cs =>
    have hne : String.mk (c :: cs) ≠ "" := by
      intro he
      have := congrArg String.data he
      simp at this
    simp [hne]

/-- C7: reducing `setLanguage(p)` gives a state whose `language` is `p`, and
reducing `setTheme(p)` gives a state whose `theme` is `p`; in both cases every
other property of the state, present or absent, is as it was before. -/
theorem setLanguage_setTheme_frame (locale : String) (state : Obj) (p : JsVal) :
    (Dict.get? (uiReducer locale (some state) (setLanguageAction p)) "language" = some p ∧
      ∀ k, k ≠ "language" →
        Dict.get? (uiReducer locale (some state) (setLanguageAction p)) k = Dict.get? state k) ∧
    (Dict.get? (uiReducer locale (some state) (setThemeAction p)) "theme" = some p ∧
      ∀ k, k ≠ "theme" →
        Dict.get? (uiReducer locale (some state) (setThemeAction p)) k = Dict.get? state k) := by
  rw [uiReducer_setLanguage, uiReducer_setTheme]
  exact ⟨⟨Dict.get?_set_same _ _ _, fun k hk => Dict.get?_set_other _ _ _ _ hk⟩,
    ⟨Dict.get?_set_same _ _ _, fun k hk => Dict.get?_set_other _ _ _ _ hk⟩⟩

/-- Witness for C7: setting the language on a dark-themed state keeps the theme. -/
theorem setLanguage_setTheme_frame_witness :
    Dict.get? (uiReducer "en-US" (some (Dict.set (initialState "en-US") "theme" (JsVal.str "dark")))
      (setLanguageAction (JsVal.str "es"))) "theme" = some (JsVal.str "dark") :=
  ((setLanguage_setTheme_frame "en-US"
    (Dict.set (initialState "en-US") "theme" (JsVal.str "dark")) (JsVal.str "es")).1.2
      "theme" (by decide)).trans (by decide)

/-- C6 (failing input): over the state the feature test preloads, and over the
slice's own initial state, the action `ui/setTheme` with payload `dark` writes
`theme` and leaves `themeMode` as it was (`light`, respectively `undefined`). -/
theorem setTheme_leaves_themeMode :
    Obj.get (uiReducer "en-US"
      (some [("language", JsVal.str "en"), ("themeMode", JsVal.str "light"),
        ("isAppReady", JsVal.bool true)])
      { type := JsVal.str "ui/setTheme", payload := JsVal.str "dark" }) "themeMode"
      = JsVal.str "light" ∧
    Obj.get (uiReducer "en-US"
      (some [("language", JsVal.str "en"), ("themeMode", JsVal.str "light"),
        ("isAppReady", JsVal.bool true)])
      { type := JsVal.str "ui/setTheme", payload := JsVal.str "dark" }) "theme"
      = JsVal.str "dark" ∧
    Obj.get (uiReducer "en-US" none
      { type := JsVal.str "ui/setTheme", payload := JsVal.str "dark" }) "themeMode"
      = JsVal.undefined := by
  decide

/-- C8: applied to an `undefined` state and an action whose type is none of the
slice's action types, the ui reducer returns the initial state, in which `language`
is the part of the device locale before the first `-`, or `en` when that part is
empty; for the locale `en-US` it is `en`. -/
theorem uiReducer_undefined_state (locale : String) (action : Action)
    (h : action.type ∉ (actionTypes locale).map JsVal.str) :
    uiReducer locale none action =
      [("theme", JsVal.str "light"),
       ("language", JsVal.str
          (if locale.toList.takeWhile (fun c => c != '-') = [] then "en"
            else String.mk (locale.toList.takeWhile (fun c => c != '-')))),
       ("isLoading", JsVal.bool false),
       ("childMenuVisible", JsVal.bool false),
       ("currentScreen", JsVal.null),
       ("currentTab", JsVal.str "home"),
       ("toastMessage", JsVal.null),
       ("notificationCount", JsVal.num 0),
       ("isOnline", JsVal.bool true),
       ("drawerOpen", JsVal.bool false)] ∧
    deviceLanguage "en-US" = "en" := by
  refine ⟨?_, by decide⟩
  rw [uiReducer_unhandled locale none action h, ← deviceLanguage_eq]
  rfl

/-- Witness for C8: the call of the slice test, `uiReducer(undefined, { type:
undefined })`, under the locale `en-US`. -/
theorem uiReducer_undefined_state_witness :
    Obj.get (uiReducer "en-US" none { type := JsVal.undefined, payload := JsVal.undefined })
      "language" = JsVal.str "en" := by
  rw [(uiReducer_undefined_state "en-US"
    { type := JsVal.undefined, payload := JsVal.undefined } (by decide)).1]
  decide

end UiSlice

/-! ## The language screen -/

namespace LanguageScreen

theorem dispatchAll_setLanguage (locale : String) (ui : Obj) (p : JsVal) :
    dispatchAll locale ui [UiSlice.setLanguageAction p] = Dict.set ui "language" p := by
  simp only [dispatchAll, List.foldl_cons, List.foldl_nil]
  exact UiSlice.uiReducer_setLanguage locale ui p

/-- C4: with `c` the language in the store and the option `code` selected on the
screen, Apply dispatches `setLanguage(code)` when `code` differs from `c` and
nothing otherwise, and leaves the store language equal to `code`; Cancel
dispatches nothing and leaves the store language equal to `c`. This holds whether
or not the call into the i18n library returns. -/
theorem apply_sets_language_cancel_keeps (locale : String) (ui : Obj) (code : String)
    (changeLanguageReturns : Bool) :
    let c := UiSlice.selectLanguage ui
    let screen := pressOption (mount ui) code
    let applied := dispatched (handleApplyLanguage changeLanguageReturns screen)
    let cancelled := dispatched (handleCancel screen)
    UiSlice.selectLanguage (dispatchAll locale ui applied) = JsVal.str code ∧
    applied = (if JsVal.str code = c then [] else [UiSlice.setLanguageAction (JsVal.str code)]) ∧
    cancelled = [] ∧
    UiSlice.selectLanguage (dispatchAll locale ui cancelled) = c := by
  intro c screen applied cancelled
  have happlied : applied =
      (if JsVal.str code = c then [] else [UiSlice.setLanguageAction (JsVal.str code)]) := by
    simp only [applied, screen, handleApplyLanguage, pressOption, mount, JsVal.strictEq_str]
    by_cases h : JsVal.str code = UiSlice.selectLanguage ui
    · simp [h, c, dispatched]
    · cases changeLanguageReturns <;> simp [h, c, dispatched]
  refine ⟨?_, happlied, rfl, rfl⟩
  rw [happlied]
  by_cases h : JsVal.str code = c
  · rw [if_pos h, h]
    rfl
  · rw [if_neg h, dispatchAll_setLanguage]
    simp [UiSlice.selectLanguage, Obj.get, Dict.get?_set_same]

end LanguageScreen

/-! ## Themes -/

namespace Theme

/-- C9: `getTheme('light')` is `lightTheme`, `getTheme('dark')` is `darkTheme`, and
`getTheme(m)` is `lightTheme` for every other `m`; the two themes are different
objects. -/
theorem getTheme_by_mode (DefaultTheme DarkTheme : PaperTheme) (fonts : Obj) :
    getTheme DefaultTheme DarkTheme fonts (JsVal.str "light") = lightTheme DefaultTheme fonts ∧
    getTheme DefaultTheme DarkTheme fonts (JsVal.str "dark") = darkTheme DarkTheme fonts ∧
    (∀ m, m ≠ JsVal.str "light" → m ≠ JsVal.str "dark" →
      getTheme DefaultTheme DarkTheme fonts m = lightTheme DefaultTheme fonts) ∧
    lightTheme DefaultTheme fonts ≠ darkTheme DarkTheme fonts := by
  refine ⟨?_, ?_, ?_, ?_⟩
  · simp [getTheme, JsVal.strictEq]
  · simp [getTheme, JsVal.strictEq]
  · intro m _ hdark
    have hd : JsVal.strictEq m (JsVal.str "dark") = false := by
      cases m <;> simp_all [JsVal.strictEq]
    simp [getTheme, hd]
  · intro h
    have := congrArg AppTheme.dark h
    simp [lightTheme, darkTheme] at this

/-- Witness for C9: the mode `system` gives the light theme. -/
theorem getTheme_by_mode_witness :
    getTheme ⟨[], []⟩ ⟨[], []⟩ [] (JsVal.str "system") = lightTheme ⟨[], []⟩ [] :=
  (getTheme_by_mode ⟨[], []⟩ ⟨[], []⟩ []).2.2.1 (JsVal.str "system") (by decide) (by decide)

end Theme

/-! ## The i18n module -/

namespace I18n

/-- C10 (counterexample): `es` has a loaded translation table, yet when the write
to `AsyncStorage` fails `setLanguage('es')` returns `false`, while
`getCurrentLanguage()` already returns `es`. -/
theorem setLanguage_false_when_write_fails :
    (load []).translations.contains "es" = true ∧
    (setLanguage false (load []) "es").1 = false ∧
    getCurrentLanguage (setLanguage false (load []) "es").2 = "es" := by
  decide

/-- C10 (amended): for a locale `x` with a loaded translation table,
`setLanguage(x)` returns `true` when the write to `AsyncStorage` succeeds, and then
`getCurrentLanguage()` returns `x` and `x` is stored under `userLanguage`; it
returns `false` when that write fails. For a locale without a loaded table it
returns `false` and leaves the current language and the storage as they were. -/
theorem setLanguage_spec (setItemResolves : Bool) (m : Module) (x : String) :
    (x ∈ m.translations → setItemResolves = true →
      (setLanguage setItemResolves m x).1 = true ∧
      getCurrentLanguage (setLanguage setItemResolves m x).2 = x ∧
      Dict.get? (setLanguage setItemResolves m x).2.storage "userLanguage" = some x) ∧
    (x ∈ m.translations → setItemResolves = false →
      (setLanguage setItemResolves m x).1 = false) ∧
    (x ∉ m.translations →
      (setLanguage setItemResolves m x).1 = false ∧
      getCurrentLanguage (setLanguage setItemResolves m x).2 = getCurrentLanguage m ∧
      (setLanguage setItemResolves m x).2.storage = m.storage) := by
  refine ⟨?_, ?_, ?_⟩
  · intro hx hr
    simp [setLanguage, hx, hr, getCurrentLanguage, Dict.get?_set_same]
  · intro hx hr
    simp [setLanguage, hx, hr]
  · intro hx
    simp [setLanguage, hx]

/-- Witness for C10: switching the freshly loaded module to `es` with a working
storage. -/
theorem setLanguage_spec_witness :
    (setLanguage true (load []) "es").1 = true ∧
    getCurrentLanguage (setLanguage true (load []) "es").2 = "es" ∧
    Dict.get? (setLanguage true (load []) "es").2.storage "userLanguage" = some "es" :=
  (setLanguage_spec true (load []) "es").1 (by decide) rfl

end I18n

/-! ## Language constants -/

/-- C11: `isRTL(x)` is true exactly when `x` is one of `ar`, `he`, `fa`, `ur`; it
is true for `ar` and false for `en` and `es`. -/
theorem isRTL_iff (x : JsVal) :
    (isRTL x = true ↔
      x = JsVal.str "ar" ∨ x = JsVal.str "he" ∨ x = JsVal.str "fa" ∨ x = JsVal.str "ur") ∧
    isRTL (JsVal.str "ar") = true ∧
    isRTL (JsVal.str "en") = false ∧
    isRTL (JsVal.str "es") = false := by
  refine ⟨?_, by decide, by decide, by decide⟩
  simp only [isRTL, RTL_LANGUAGES, JsVal.sameValueZero, List.any_cons, List.any_nil,
    Bool.or_false, Bool.or_eq_true, decide_eq_true_eq]
  constructor
  · rintro (h | h | h | h) <;> simp [← h]
  · rintro (h | h | h | h) <;> simp [h]

/-! ## Child profiles -/

theorem Dict.get?_eq_none_of_not_mem_keys {α : Type} (d : Dict α) (k : String)
    (h : k ∉ Dict.keys d) : Dict.get? d k = none := by
  induction d with
  | nil => rfl
  | cons hd tl ih =>
    obtain ⟨k', v'⟩ := hd
    simp only [Dict.keys, List.map_cons, List.mem_cons, not_or] at h
    have hne : ¬ k' = k := fun e => h.1 e.symm
    simp only [Dict.get?, hne, if_false]
    exact ih h.2

theorem Dict.mem_keys_of_get?_eq_some {α : Type} (d : Dict α) (k : String) (v : α)
    (h : Dict.get? d k = some v) : (k, v) ∈ d := by
  induction d with
  | nil => simp [Dict.get?] at h
  | cons hd tl ih =>
    obtain ⟨k', v'⟩ := hd
    by_cases hk : k' = k
    · simp only [Dict.get?, hk, if_true, Option.some.injEq] at h
      simp [hk, h]
    · simp only [Dict.get?, hk, if_false] at h
      exact List.mem_cons_of_mem _ (ih h)

theorem Dict.get?_ne_none_of_mem {α : Type} (d : Dict α) (k : String) (v : α)
    (h : (k, v) ∈ d) : Dict.get? d k ≠ none := by
  induction d with
  | nil => cases h
  | cons hd tl ih =>
    obtain ⟨k₁, v₁⟩ := hd
    by_cases hk : k₁ = k
    · simp [Dict.get?, hk]
    · simp only [Dict.get?, hk, if_false]
      rcases List.mem_cons.mp h with heq | hm
      · injection heq with h1 _
        exact absurd h1.symm hk
      · exact ih hm

theorem Dict.not_mem_keys_of_get?_eq_none {α : Type} (d : Dict α) (k : String)
    (h : Dict.get? d k = none) : k ∉ Dict.keys d := by
  intro hk
  simp only [Dict.keys, List.mem_map] at hk
  obtain ⟨⟨k', v'⟩, hmem, hk'⟩ := hk
  simp only at hk'
  rw [hk'] at hmem
  exact Dict.get?_ne_none_of_mem d k v' hmem h

theorem Obj.get?_assign_of_not_mem (target source : Obj) (k : String)
    (h : k ∉ Dict.keys source) :
    Dict.get? (Obj.assign target source) k = Dict.get? target k := by
  induction source generalizing target with
  | nil => rfl
  | cons hd tl ih =>
    obtain ⟨k', v'⟩ := hd
    simp only [Dict.keys, List.map_cons, List.mem_cons, not_or] at h
    simp only [Obj.assign, List.foldl_cons]
    have := ih (Dict.set target k' v') h.2
    simp only [Obj.assign] at this
    rw [this]
    exact Dict.get?_set_other _ _ _ _ h.1

theorem Obj.get?_assign_of_mem (target source : Obj) (k : String) (v : JsVal)
    (hnodup : (Dict.keys source).Nodup) (h : (k, v) ∈ source) :
    Dict.get? (Obj.assign target source) k = some v := by
  induction source generalizing target with
  | nil => cases h
  | cons hd tl ih =>
    obtain ⟨k', v'⟩ := hd
    simp only [Dict.keys, List.map_cons, List.nodup_cons] at hnodup
    have hstep : Obj.assign target ((k', v') :: tl) = Obj.assign (Dict.set target k' v') tl := rfl
    rw [hstep]
    rcases List.mem_cons.mp h with heq | hmem
    · injection heq with h1 h2
      subst h1; subst h2
      rw [Obj.get?_assign_of_not_mem _ _ _ hnodup.1]
      exact Dict.get?_set_same _ _ _
    · exact ih _ hnodup.2 hmem

theorem Obj.get?_assign_nil (source : Obj) (k : String)
    (hnodup : (Dict.keys source).Nodup) :
    Dict.get? (Obj.assign [] source) k = Dict.get? source k := by
  cases h : Dict.get? source k with
  | none =>
    rw [Obj.get?_assign_of_not_mem _ _ _ (Dict.not_mem_keys_of_get?_eq_none _ _ h)]
    rfl
  | some v =>
    exact Obj.get?_assign_of_mem [] source k v hnodup (Dict.mem_keys_of_get?_eq_some _ _ _ h)

theorem Dict.get?_filter_ne {α : Type} (d : Dict α) (p k : String) :
    Dict.get? (d.filter (fun entry => entry.1 != p)) k =
      if k = p then none else Dict.get? d k := by
  induction d with
  | nil => simp [Dict.get?]
  | cons hd tl ih =>
    obtain ⟨k', v'⟩ := hd
    by_cases hp : k' = p
    · subst hp
      simp only [List.filter_cons, bne_self_eq_false, Bool.false_eq_true, if_false, ih]
      by_cases hk : k = k'
      · simp [hk]
      · have hk' : ¬ k' = k := fun e => hk e.symm
        simp [hk, Dict.get?, hk']
    · have hb : (k' != p) = true := by simpa using hp
      simp only [List.filter_cons, hb, if_true, Dict.get?]
      by_cases hk : k' = k
      · subst hk
        simp [hp]
      · simp only [hk, if_false, ih]

theorem Dict.keys_filter_nodup {α : Type} (d : Dict α) (q : String × α → Bool)
    (h : (Dict.keys d).Nodup) : (Dict.keys (d.filter q)).Nodup :=
  List.Nodup.sublist (List.Sublist.map Prod.fst (List.filter_sublist d)) h

namespace ChildService

theorem updateDocument_fields (now : JsVal) (childId : String) (updateData : Obj)
    (hkeys : (Dict.keys updateData).Nodup) :
    let call := updateChildProfile now childId updateData
    call.collection = "children" ∧ call.id = childId ∧
    Dict.get? call.data "parentId" = none ∧
    Dict.get? call.data "updatedAt" = some now ∧
    (∀ k, k ≠ "parentId" → k ≠ "updatedAt" →
      Dict.get? call.data k = Dict.get? updateData k) := by
  intro call
  have hsafe : (Dict.keys (updateData.filter (fun entry => entry.1 != "parentId"))).Nodup :=
    Dict.keys_filter_nodup updateData _ hkeys
  have hdata : ∀ k, k ≠ "updatedAt" →
      Dict.get? call.data k = if k = "parentId" then none else Dict.get? updateData k := by
    intro k hk
    show Dict.get? (updateDocument now updateData) k = _
    unfold updateDocument
    rw [Dict.get?_set_other _ _ _ _ hk, Obj.get?_assign_nil _ _ hsafe, Dict.get?_filter_ne]
  have hparent : Dict.get? call.data "parentId" = none := by
    rw [hdata "parentId" (by decide)]
    simp
  refine ⟨rfl, rfl, hparent, ?_, ?_⟩
  · show Dict.get? (updateDocument now updateData) "updatedAt" = some now
    unfold updateDocument
    exact Dict.get?_set_same _ _ _
  · intro k hp hu
    rw [hdata k hu, if_neg hp]

theorem updateDocument_fields_example :
    Dict.get? (updateChildProfile (JsVal.str "now") "k1"
      [("name", JsVal.str "Ann"), ("parentId", JsVal.str "u9")]).data "parentId" = none :=
  (updateDocument_fields (JsVal.str "now") "k1"
    [("name", JsVal.str "Ann"), ("parentId", JsVal.str "u9")] (by decide)).2.2.1

theorem applyUpdate_examples :
    Dict.get?
      (applyUpdate
        [("name", FieldValue.prim (JsVal.str "Ann")),
         ("parentId", FieldValue.prim (JsVal.str "u1"))]
        (updateChildProfile (JsVal.str "now") "k1"
          [("name", JsVal.str "Bea"), ("parentId", JsVal.str "u9")]).data)
      "parentId" = some (FieldValue.prim (JsVal.str "u1")) ∧
    Dict.get?
      (applyUpdate
        [("name", FieldValue.prim (JsVal.str "Ann")),
         ("parentId", FieldValue.prim (JsVal.str "u1"))]
        (updateChildProfile (JsVal.str "now") "k1"
          [("name", JsVal.str "Bea"), ("parentId", JsVal.str "u9")]).data)
      "name" = some (FieldValue.prim (JsVal.str "Bea")) ∧
    applyUpdate
      [("settings", FieldValue.map [("whitelist", FieldValue.prim JsVal.null)])]
      [("settings.toxicCategories", JsVal.str "all")] =
      [("settings", FieldValue.map
        [("whitelist", FieldValue.prim JsVal.null),
         ("toxicCategories", FieldValue.prim (JsVal.str "all"))])] :=
  ⟨rfl, rfl, rfl⟩

/-- C12 (failing input): for `updateData` with the single key `parentId.x`, the
update issued by `updateChildProfile` has no key `parentId` and still holds the key
`parentId.x`; written by `updateDoc` onto a child document whose `parentId` is `u1`,
it replaces that `parentId` by a map with the field `x`. -/
theorem updateChildProfile_changes_parentId :
    Dict.get? (updateChildProfile (JsVal.str "now") "k1"
      [("parentId.x", JsVal.str "evil")]).data "parentId" = none ∧
    Dict.get? (updateChildProfile (JsVal.str "now") "k1"
      [("parentId.x", JsVal.str "evil")]).data "parentId.x" = some (JsVal.str "evil") ∧
    Dict.get?
      (applyUpdate
        [("name", FieldValue.prim (JsVal.str "Ann")),
         ("parentId", FieldValue.prim (JsVal.str "u1"))]
        (updateChildProfile (JsVal.str "now") "k1" [("parentId.x", JsVal.str "evil")]).data)
      "parentId" =
        some (FieldValue.map [("x", FieldValue.prim (JsVal.str "evil"))]) ∧
    FieldValue.map [("x", FieldValue.prim (JsVal.str "evil"))] ≠
      FieldValue.prim (JsVal.str "u1") := by
  refine ⟨by decide, by decide, rfl, ?_⟩
  intro h
  cases h

end ChildService

theorem JsVal.strictEq_str_right (v : JsVal) (s : String) :
    JsVal.strictEq v (JsVal.str s) = decide (v = JsVal.str s) := by
  cases v <;> simp [JsVal.strictEq]

theorem Dict.get?_erase_same {α : Type} (d : Dict α) (k : String) :
    Dict.get? (Dict.erase d k) k = none := by
  unfold Dict.erase
  rw [Dict.get?_filter_ne]
  simp

namespace ChildService

theorem updateCoParent_frame (childId : String) (acc : Firestore × List Write)
    (coParentId : String) :
    (updateCoParent childId acc coParentId).1.children = acc.1.children ∧
    ∃ extra, (updateCoParent childId acc coParentId).2 = acc.2 ++ extra ∧
      ∀ w ∈ extra, ∃ id field, w = Write.updateDoc "users" id field := by
  unfold updateCoParent
  split
  · exact ⟨rfl, [], by simp, fun w hw => by cases hw⟩
  · split
    · exact ⟨rfl, [], by simp, fun w hw => by cases hw⟩
    · split
      · exact ⟨rfl, [], by simp, fun w hw => by cases hw⟩
      · refine ⟨rfl, [Write.updateDoc "users" coParentId "coParents"], rfl, fun w hw => ?_⟩
        rw [List.mem_singleton] at hw
        exact ⟨coParentId, "coParents", hw⟩

theorem foldl_updateCoParent_frame (childId : String) (coParentIds : List String)
    (acc : Firestore × List Write) :
    (coParentIds.foldl (updateCoParent childId) acc).1.children = acc.1.children ∧
    ∃ extra, (coParentIds.foldl (updateCoParent childId) acc).2 = acc.2 ++ extra ∧
      ∀ w ∈ extra, ∃ id field, w = Write.updateDoc "users" id field := by
  induction coParentIds generalizing acc with
  | nil => exact ⟨rfl, [], by simp, fun w hw => by cases hw⟩
  | cons id rest ih =>
    simp only [List.foldl_cons]
    obtain ⟨hc, extra, hw, hall⟩ := ih (updateCoParent childId acc id)
    obtain ⟨hc', extra', hw', hall'⟩ := updateCoParent_frame childId acc id
    refine ⟨hc.trans hc', extra' ++ extra, ?_, fun w hmem => ?_⟩
    · rw [hw, hw', List.append_assoc]
    · rcases List.mem_append.mp hmem with h | h
      · exact hall' w h
      · exact hall w h

theorem deleteChildProfile_owner (db : Firestore) (userId childId : String)
    (childData : ChildDoc) (hdoc : Dict.get? db.children childId = some childData)
    (howner : childData.parentId = JsVal.str userId) :
    (∃ rest, (deleteChildProfile db userId childId).writes =
      Write.deleteDoc "children" childId :: rest ∧
      ∀ w ∈ rest, ∃ id field, w = Write.updateDoc "users" id field) ∧
    Dict.get? (deleteChildProfile db userId childId).db.children childId = none := by
  have hstrict : JsVal.strictEq childData.parentId (JsVal.str userId) = true := by
    rw [JsVal.strictEq_str_right, howner]
    simp
  have hone : ∀ w ∈ [Write.updateDoc "users" userId "children"],
      ∃ id field, w = Write.updateDoc "users" id field := by
    intro w hw
    rw [List.mem_singleton] at hw
    exact ⟨userId, "children", hw⟩
  unfold deleteChildProfile
  simp only [hdoc, hstrict, Bool.not_true, Bool.false_eq_true, if_false]
  cases huser : Dict.get? db.users userId with
  | none =>
    exact ⟨⟨[], rfl, fun w hw => by cases hw⟩, Dict.get?_erase_same _ _⟩
  | some userData =>
    simp only []
    cases hco : childData.coParentIds with
    | none =>
      simp only []
      exact ⟨⟨_, rfl, hone⟩, Dict.get?_erase_same _ _⟩
    | some coParentIds =>
      simp only []
      split_ifs with hlen
      · obtain ⟨hc, extra, hw, hall⟩ := foldl_updateCoParent_frame childId coParentIds
          ({ children := Dict.erase db.children childId,
             users := Dict.set db.users userId
               { userData with
                 children := some ((userData.children.getD []).filter (fun id => id != childId)) } },
            [Write.deleteDoc "children" childId] ++ [Write.updateDoc "users" userId "children"])
        constructor
        · refine ⟨[Write.updateDoc "users" userId "children"] ++ extra, ?_, fun w hmem => ?_⟩
          · rw [hw]
            rfl
          · rcases List.mem_append.mp hmem with h | h
            · exact hone w h
            · exact hall w h
        · rw [hc]
          exact Dict.get?_erase_same _ _
      · exact ⟨⟨_, rfl, hone⟩, Dict.get?_erase_same _ _⟩

/-- C13: `deleteChildProfile` rejects with `Child profile not found` when the child
document does not exist, and with `You do not have permission to delete this
profile` when the `parentId` of the child document is not `userId`; in both cases
it issues no write and leaves the database as it was. A `deleteDoc` is issued only
for the child document and only when `userId` is its `parentId`, and in that case
the child document is deleted. -/
theorem deleteChildProfile_guards (db : Firestore) (userId childId : String) :
    (Dict.get? db.children childId = none →
      deleteChildProfile db userId childId =
        { result := Settled.thrown "Child profile not found", writes := [], db := db }) ∧
    (∀ childData, Dict.get? db.children childId = some childData →
      childData.parentId ≠ JsVal.str userId →
      deleteChildProfile db userId childId =
        { result := Settled.thrown "You do not have permission to delete this profile",
          writes := [], db := db }) ∧
    (∀ collection id, Write.deleteDoc collection id ∈ (deleteChildProfile db userId childId).writes →
      collection = "children" ∧ id = childId ∧
      ∃ childData, Dict.get? db.children childId = some childData ∧
        childData.parentId = JsVal.str userId) ∧
    (∀ childData, Dict.get? db.children childId = some childData →
      childData.parentId = JsVal.str userId →
      Write.deleteDoc "children" childId ∈ (deleteChildProfile db userId childId).writes ∧
      Dict.get? (deleteChildProfile db userId childId).db.children childId = none) := by
  have hmissing : Dict.get? db.children childId = none →
      deleteChildProfile db userId childId =
        { result := Settled.thrown "Child profile not found", writes := [], db := db } := by
    intro h
    unfold deleteChildProfile
    simp only [h]
  have hdenied : ∀ childData, Dict.get? db.children childId = some childData →
      childData.parentId ≠ JsVal.str userId →
      deleteChildProfile db userId childId =
        { result := Settled.thrown "You do not have permission to delete this profile",
          writes := [], db := db } := by
    intro childData h hne
    have hstrict : JsVal.strictEq childData.parentId (JsVal.str userId) = false := by
      rw [JsVal.strictEq_str_right]
      simpa using hne
    unfold deleteChildProfile
    simp only [h, hstrict, Bool.not_false, if_true]
  refine ⟨hmissing, hdenied, ?_, ?_⟩
  · intro collection id hmem
    cases hdoc : Dict.get? db.children childId with
    | none =>
      rw [hmissing hdoc] at hmem
      cases hmem
    | some childData =>
      by_cases howner : childData.parentId = JsVal.str userId
      · obtain ⟨⟨rest, hw, hall⟩, -⟩ := deleteChildProfile_owner db userId childId childData hdoc howner
        rw [hw] at hmem
        rcases List.mem_cons.mp hmem with heq | hrest
        · injection heq with h1 h2
          exact ⟨h1, h2, childData, rfl, howner⟩
        · obtain ⟨id', field, hupd⟩ := hall _ hrest
          cases hupd
      · rw [hdenied childData hdoc howner] at hmem
        cases hmem
  · intro childData hdoc howner
    obtain ⟨⟨rest, hw, -⟩, hgone⟩ := deleteChildProfile_owner db userId childId childData hdoc howner
    exact ⟨by rw [hw]; exact List.mem_cons_self _ _, hgone⟩

/-- Witness for C13: a user who is not the parent asks to delete a child profile;
nothing is written. -/
theorem deleteChildProfile_guards_witness :
    (deleteChildProfile
      { children := [("k1", { parentId := JsVal.str "u1", coParentIds := none, fields := [] })],
        users := [] } "u2" "k1").writes = [] :=
  congrArg Outcome.writes
    ((deleteChildProfile_guards
      { children := [("k1", { parentId := JsVal.str "u1", coParentIds := none, fields := [] })],
        users := [] } "u2" "k1").2.1
      { parentId := JsVal.str "u1", coParentIds := none, fields := [] } (by decide) (by decide))

end ChildService

/-! ## Helper utilities: initials, truncation, percentages -/

namespace Helpers

/-- C14 (failing input): for the name made of two words that each start with the
letter sharp s, whose upper case is `SS`, `getChildInitials` returns `SSSS`, a
string of 4 characters. -/
theorem getChildInitials_four_characters (toUpperCase : JsString → JsString)
    (h : toUpperCase [0xDF] = [0x53, 0x53]) :
    getChildInitials toUpperCase (utf16 "ß ß") = utf16 "SSSS" ∧
    (getChildInitials toUpperCase (utf16 "ß ß")).length = 4 := by
  have hrun : getChildInitials toUpperCase (utf16 "ß ß") =
      toUpperCase [0xDF] ++ toUpperCase [0xDF] := by
    rfl
  rw [hrun, h]
  exact ⟨by decide, by decide⟩

/-- Witness for C14: the same run with a `toUpperCase` that maps sharp s to `SS`. -/
theorem getChildInitials_four_characters_witness :
    (getChildInitials sampleToUpperCase (utf16 "ß ß")).length = 4 :=
  (getChildInitials_four_characters sampleToUpperCase (by decide)).2

/-- C15 (failing input): `truncateText('abcdef', 3)` is `abc...`, a string of 6
characters. -/
theorem truncateText_exceeds_length :
    truncateText (utf16 "abcdef") 3 = utf16 "abc..." ∧
    (truncateText (utf16 "abcdef") 3).length = 6 := by
  decide

/-- C16 (failing input): `calculatePercentage(5, 2)` is 250 and
`calculatePercentage(-1, 2)` is -50. -/
theorem calculatePercentage_out_of_range :
    calculatePercentage 5 2 = 250 ∧ calculatePercentage (-1) 2 = -50 := by
  constructor
  · simp only [calculatePercentage, mathRound]
    norm_num
  · simp only [calculatePercentage, mathRound]
    norm_num

end Helpers

/-! ## Helper utilities: avatar colours and file names -/

namespace Helpers

set_option maxRecDepth 4000 in
theorem getColorFromString_negative_hash :
    hashOf (utf16 "abcdefgh") < 0 ∧
      getColorFromString (utf16 "abcdefgh") = some "#FFC107" := by
  decide

/-- C19: `getColorFromString(s)` is always one of the 16 colours of the palette,
because the index `Math.abs(hash) % 16` is below 16 whatever the sign of `hash`; it
is `#FF5722` for the empty string; equal inputs give equal colours. For `abcdefgh`
the hash is negative and the colour is `#FFC107`. -/
theorem getColorFromString_in_palette (s : JsString) :
    (∃ color ∈ avatarColors, getColorFromString s = some color) ∧
    colorIndex s < 16 ∧ avatarColors.length = 16 ∧
    getColorFromString [] = some "#FF5722" ∧
    (∀ t, s = t → getColorFromString s = getColorFromString t) ∧
    (hashOf (utf16 "abcdefgh") < 0 ∧
      getColorFromString (utf16 "abcdefgh") = some "#FFC107") := by
  have hlen : avatarColors.length = 16 := by decide
  have hidx : colorIndex s < avatarColors.length := by
    unfold colorIndex
    exact Nat.mod_lt _ (by rw [hlen]; decide)
  refine ⟨?_, by rw [← hlen]; exact hidx, hlen, rfl, fun t h => by rw [h],
    getColorFromString_negative_hash⟩
  unfold getColorFromString
  split_ifs with hempty
  · exact ⟨"#FF5722", by decide, rfl⟩
  · refine ⟨avatarColors.get ⟨colorIndex s, hidx⟩, List.get_mem _ _ _, ?_⟩
    exact List.get?_eq_get hidx

/-- Witness for C19: the colour of the name `Tom`. -/
theorem getColorFromString_in_palette_witness :
    getColorFromString (utf16 "Tom") = getColorFromString [0x54, 0x6F, 0x6D] :=
  (getColorFromString_in_palette (utf16 "Tom")).2.2.2.2.1 [0x54, 0x6F, 0x6D] (by decide)

theorem replaceUnsafe_safe (s : JsString) (u : Nat) (h : u ∈ replaceUnsafe s) :
    isUnsafeUnit u = false := by
  unfold replaceUnsafe at h
  rw [List.mem_map] at h
  obtain ⟨x, -, hx⟩ := h
  by_cases hux : isUnsafeUnit x = true
  · rw [if_pos hux] at hx
    rw [← hx]
    decide
  · rw [if_neg hux] at hx
    rw [← hx]
    simpa using hux

theorem replaceSpaceRunsFrom_mem (inRun : Bool) (s : JsString) (u : Nat)
    (h : u ∈ replaceSpaceRunsFrom inRun s) :
    isSpaceUnit u = false ∧ (u = 0x5F ∨ u ∈ s) := by
  induction s generalizing inRun with
  | nil => simp [replaceSpaceRunsFrom] at h
  | cons x xs ih =>
    unfold replaceSpaceRunsFrom at h
    by_cases hx : isSpaceUnit x = true
    · rw [if_pos hx] at h
      cases inRun with
      | true =>
        simp only [if_true] at h
        obtain ⟨h1, h2⟩ := ih true h
        exact ⟨h1, h2.imp id (List.mem_cons_of_mem x)⟩
      | false =>
        simp only [Bool.false_eq_true, if_false] at h
        rcases List.mem_cons.mp h with h | h
        · rw [h]
          exact ⟨by decide, Or.inl rfl⟩
        · obtain ⟨h1, h2⟩ := ih true h
          exact ⟨h1, h2.imp id (List.mem_cons_of_mem x)⟩
    · rw [if_neg hx] at h
      rcases List.mem_cons.mp h with h | h
      · rw [h]
        exact ⟨by simpa using hx, Or.inr (List.mem_cons_self x xs)⟩
      · obtain ⟨h1, h2⟩ := ih false h
        exact ⟨h1, h2.imp id (List.mem_cons_of_mem x)⟩

theorem replaceSpaceRuns_ne_nil (s : JsString) (h : s ≠ []) : replaceSpaceRuns s ≠ [] := by
  cases s with
  | nil => exact absurd rfl h
  | cons x xs =>
    unfold replaceSpaceRuns replaceSpaceRunsFrom
    by_cases hx : isSpaceUnit x = true
    · simp [hx]
    · simp [hx]

theorem asciiToLowerCase_laws : LowerCaseLaws asciiToLowerCase := by
  have key : ∀ x : Nat, isUpperAscii x = true →
      isUpperAscii (x + 0x20) = false ∧ isUnsafeUnit (x + 0x20) = false ∧
        isSpaceUnit (x + 0x20) = false := by
    intro x hx
    simp only [isUpperAscii, Bool.and_eq_true, decide_eq_true_eq] at hx
    obtain ⟨h1, h2⟩ := hx
    refine ⟨?_, ?_, ?_⟩
    · simp only [isUpperAscii, Bool.and_eq_false_iff, decide_eq_false_iff_not]
      omega
    · simp only [isUnsafeUnit, Bool.or_eq_false_iff, decide_eq_false_iff_not]
      omega
    · simp only [isSpaceUnit, Bool.or_eq_false_iff, Bool.and_eq_false_iff,
        decide_eq_false_iff_not]
      omega
  refine ⟨?_, ?_, ?_⟩
  · intro s u hu
    unfold asciiToLowerCase at hu
    rw [List.mem_map] at hu
    obtain ⟨x, -, hx⟩ := hu
    by_cases hup : isUpperAscii x = true
    · rw [if_pos hup] at hx
      rw [← hx]
      exact (key x hup).1
    · rw [if_neg hup] at hx
      rw [← hx]
      simpa using hup
  · intro s u hu hbad
    unfold asciiToLowerCase at hu
    rw [List.mem_map] at hu
    obtain ⟨x, hxs, hx⟩ := hu
    by_cases hup : isUpperAscii x = true
    · rw [if_pos hup] at hx
      rw [← hx] at hbad
      obtain ⟨-, h2, h3⟩ := key x hup
      rcases hbad with hbad | hbad
      · rw [h2] at hbad; cases hbad
      · rw [h3] at hbad; cases hbad
    · rw [if_neg hup] at hx
      rw [← hx]
      exact hxs
  · intro s hs
    unfold asciiToLowerCase
    simpa using hs

/-- C18: whatever the string `s`, `createSafeFilename(s)` contains none of the
characters `/ \ ? % * : | " < >`, no white space and no upper-case ASCII letter, and
is not empty; for the empty string it is `file`. The method `toLowerCase` enters
through three facts: its result has no upper-case ASCII letter, it brings in no
unsafe character and no white space, and it turns no non-empty string into the
empty one. -/
theorem createSafeFilename_safe (toLowerCase : JsString → JsString)
    (laws : LowerCaseLaws toLowerCase) (s : JsString) :
    (∀ u ∈ createSafeFilename toLowerCase s,
      isUnsafeUnit u = false ∧ isSpaceUnit u = false ∧ isUpperAscii u = false) ∧
    createSafeFilename toLowerCase s ≠ [] ∧
    createSafeFilename toLowerCase [] = utf16 "file" := by
  refine ⟨?_, ?_, rfl⟩
  · intro u hu
    unfold createSafeFilename at hu
    split_ifs at hu with hempty
    · revert u
      decide
    · have hclean : ∀ x ∈ replaceSpaceRuns (replaceUnsafe s),
          isUnsafeUnit x = false ∧ isSpaceUnit x = false := by
        intro x hx
        obtain ⟨h1, h2⟩ := replaceSpaceRunsFrom_mem false _ x hx
        refine ⟨?_, h1⟩
        rcases h2 with h2 | h2
        · rw [h2]; decide
        · exact replaceUnsafe_safe s x h2
      refine ⟨?_, ?_, laws.no_upper _ u hu⟩
      · cases hun : isUnsafeUnit u with
        | false => rfl
        | true =>
          have := (hclean u (laws.nothing_new _ u hu (Or.inl hun))).1
          rw [hun] at this
          cases this
      · cases hsp : isSpaceUnit u with
        | false => rfl
        | true =>
          have := (hclean u (laws.nothing_new _ u hu (Or.inr hsp))).2
          rw [hsp] at this
          cases this
  · unfold createSafeFilename
    split_ifs with hempty
    · decide
    · apply laws.nonempty
      apply replaceSpaceRuns_ne_nil
      unfold replaceUnsafe
      intro hnil
      apply hempty
      rw [List.map_eq_nil_iff] at hnil
      rw [hnil]
      rfl

/-- Witness for C18: the file name made from `My Report: v1.PDF` with the ASCII
lower-casing. -/
theorem createSafeFilename_safe_witness :
    createSafeFilename asciiToLowerCase (utf16 "My Report: v1.PDF") ≠ [] :=
  (createSafeFilename_safe asciiToLowerCase asciiToLowerCase_laws
    (utf16 "My Report: v1.PDF")).2.1

end Helpers

/-! ## Helper utilities: nested values; alerts pushed to the device -/

namespace Helpers

theorem ownProperty_nullish (v : JsValue) (key : JsString) (h : v.isNullish = true) :
    ownProperty v key = none := by
  cases v <;> simp [JsValue.isNullish] at h <;> rfl

theorem getNestedValueLoop_eq (defaultValue : JsValue) (keys : List JsString) (v : JsValue) :
    getNestedValueLoop defaultValue v keys =
      match followKeys v keys with
      | some value => if value.isUndefined then defaultValue else value
      | none => defaultValue := by
  induction keys generalizing v with
  | nil => rfl
  | cons key rest ih =>
    unfold getNestedValueLoop followKeys
    by_cases hn : v.isNullish = true
    · rw [if_pos hn, ownProperty_nullish v key hn]
    · rw [if_neg hn]
      cases ownProperty v key with
      | none => rfl
      | some next => exact ih next

/-- C17: for an object or an array `obj`, `getNestedValue(obj, p, d)` is the value
reached by following the keys of `p` when every key is an own property at its level
and the value reached is not `undefined`, so that `null`, `0`, `false` and the
empty string come back as they are, and it is `d` in every other case; it is `d`
as well when `obj` is missing or `p` is missing or empty. -/
theorem getNestedValue_follows_path (path : Option JsString) (d : JsValue) :
    (∀ fields, getNestedValue (JsValue.obj fields) path d =
      getNestedValueSpec (JsValue.obj fields) path d) ∧
    (∀ items, getNestedValue (JsValue.arr items) path d =
      getNestedValueSpec (JsValue.arr items) path d) ∧
    getNestedValue JsValue.undefined path d = d ∧
    getNestedValue JsValue.null path d = d ∧
    (∀ obj, getNestedValue obj none d = d ∧ getNestedValue obj (some []) d = d) ∧
    (∀ obj p value, obj.truthy = true → p ≠ [] →
      followKeys obj (splitUnits 0x2E p) = some value → value.isUndefined = false →
      getNestedValue obj (some p) d = value) ∧
    (∀ obj p, followKeys obj (splitUnits 0x2E p) = none → getNestedValue obj (some p) d = d) := by
  have hobj : ∀ obj : JsValue, obj.truthy = true →
      getNestedValue obj path d = getNestedValueSpec obj path d := by
    intro obj ht
    cases path with
    | none => rfl
    | some p =>
      unfold getNestedValue getNestedValueSpec
      simp only [ht, Bool.not_true, Bool.false_or]
      by_cases hp : p.isEmpty = true
      · simp [hp]
      · simp only [hp, Bool.false_eq_true, if_false]
        exact getNestedValueLoop_eq d _ obj
  refine ⟨fun fields => hobj _ rfl, fun items => hobj _ rfl, ?_, ?_, ?_, ?_, ?_⟩
  · cases path <;> rfl
  · cases path <;> rfl
  · intro obj
    refine ⟨rfl, ?_⟩
    unfold getNestedValue
    simp
  · intro obj p value ht hp hfollow hdef
    have hp' : p.isEmpty = false := by
      cases p with
      | nil => exact absurd rfl hp
      | cons _ _ => rfl
    unfold getNestedValue
    simp only [ht, hp', Bool.not_true, Bool.or_self, Bool.false_eq_true, if_false]
    rw [getNestedValueLoop_eq, hfollow]
    simp [hdef]
  · intro obj p hfollow
    unfold getNestedValue
    simp only []
    split_ifs
    · rfl
    · rw [getNestedValueLoop_eq, hfollow]

/-- Witness for C17: the path `a.b` leads to the value `0`, which is returned in
place of the default. -/
theorem getNestedValue_follows_path_witness :
    getNestedValue
      (JsValue.obj [(utf16 "a", JsValue.obj [(utf16 "b", JsValue.num 0)])])
      (some (utf16 "a.b")) JsValue.null = JsValue.num 0 :=
  (getNestedValue_follows_path (some (utf16 "a.b")) JsValue.null).2.2.2.2.2.1
    (JsValue.obj [(utf16 "a", JsValue.obj [(utf16 "b", JsValue.num 0)])])
    (utf16 "a.b") (JsValue.num 0) rfl (by decide) (by rfl) rfl

end Helpers

theorem findIndex_eq_none {α : Type} (p : α → Bool) (l : List α) (h : ∀ a ∈ l, p a = false) :
    findIndex p l = none := by
  induction l with
  | nil => rfl
  | cons a rest ih =>
    unfold findIndex
    rw [h a (List.mem_cons_self a rest)]
    simp [ih (fun b hb => h b (List.mem_cons_of_mem a hb))]

theorem findIndex_eq_some {α : Type} (p : α → Bool) (pre : List α) (x : α) (post : List α)
    (hpre : ∀ a ∈ pre, p a = false) (hx : p x = true) :
    findIndex p (pre ++ x :: post) = some pre.length := by
  induction pre with
  | nil => simp [findIndex, hx]
  | cons a rest ih =>
    have ha : p a = false := hpre a (List.mem_cons_self a rest)
    have := ih (fun b hb => hpre b (List.mem_cons_of_mem a hb))
    simp [findIndex, ha, this]

namespace AlertsState

theorem receiveNewAlert_alerts (state : AlertsState) (alert : Alert)
    (h : (Obj.get alert "childId").truthy = true) :
    let c := (Obj.get alert "childId").toJsString
    let cached := state.selectAlertsByChildId c
    receiveNewAlert state (some alert) =
      { state with
        alerts := Dict.set
          (if (Dict.get? state.alerts c).isNone then Dict.set state.alerts c [] else state.alerts)
          c
          (match findIndex (fun a => JsVal.strictEq (Alert.id a) (Alert.id alert)) cached with
            | none => alert :: cached
            | some existingIndex => cached.set existingIndex alert) } := by
  intro c cached
  unfold receiveNewAlert
  simp only [h, if_true]
  cases hg : Dict.get? state.alerts (Obj.get alert "childId").toJsString with
  | none =>
    simp only [Option.isNone_none, if_true, Dict.get?_set_same, Option.getD_some, c, cached,
      selectAlertsByChildId, hg, Option.getD_none]
    cases findIndex (fun a => JsVal.strictEq (Alert.id a) (Alert.id alert)) [] <;> rfl
  | some L =>
    simp only [Option.isNone_some, Bool.false_eq_true, if_false, hg, Option.getD_some, c,
      cached, selectAlertsByChildId]
    cases findIndex (fun a => JsVal.strictEq (Alert.id a) (Alert.id alert)) L <;> rfl

/-- C20: `receiveNewAlert` leaves the state as it is when the payload has no alert
or the alert's `childId` is missing or empty. Otherwise, with `c` the alert's
`childId` and `L` the cached list of `c`: when no alert of `L` has the id of the
new alert, the new list is the alert followed by `L`; when one has, the first such
alert is replaced by the new one where it stands, the rest of the list staying as
it is. The lists of the other children and the other fields are not touched. -/
theorem receiveNewAlert_spec (state : AlertsState) :
    receiveNewAlert state none = state ∧
    (∀ alert : Alert, (Obj.get alert "childId").truthy = false →
      receiveNewAlert state (some alert) = state) ∧
    (∀ alert : Alert, (Obj.get alert "childId").truthy = true →
      let c := (Obj.get alert "childId").toJsString
      let L := state.selectAlertsByChildId c
      let next := receiveNewAlert state (some alert)
      ((∀ a ∈ L, JsVal.strictEq (Alert.id a) (Alert.id alert) = false) →
        Dict.get? next.alerts c = some (alert :: L)) ∧
      (∀ pre x post, L = pre ++ x :: post →
        (∀ a ∈ pre, JsVal.strictEq (Alert.id a) (Alert.id alert) = false) →
        JsVal.strictEq (Alert.id x) (Alert.id alert) = true →
        Dict.get? next.alerts c = some (pre ++ alert :: post)) ∧
      (∀ c', c' ≠ c → Dict.get? next.alerts c' = Dict.get? state.alerts c') ∧
      next.lastDocs = state.lastDocs ∧ next.selectedAlertId = state.selectedAlertId ∧
      next.downloadedClips = state.downloadedClips ∧ next.stats = state.stats ∧
      next.status = state.status ∧ next.error = state.error) := by
  refine ⟨rfl, ?_, ?_⟩
  · intro alert h
    unfold receiveNewAlert
    simp [h]
  · intro alert h c L next
    have hnext := receiveNewAlert_alerts state alert h
    simp only at hnext
    refine ⟨?_, ?_, ?_, ?_⟩
    · intro hnone
      show Dict.get? (receiveNewAlert state (some alert)).alerts c = _
      rw [hnext, Dict.get?_set_same, findIndex_eq_none _ _ hnone]
    · intro pre x post hL hpre hx
      show Dict.get? (receiveNewAlert state (some alert)).alerts c = _
      rw [hnext, Dict.get?_set_same]
      have hL' : state.selectAlertsByChildId (Obj.get alert "childId").toJsString =
          pre ++ x :: post := hL
      rw [hL', findIndex_eq_some _ pre x post hpre hx]
      simp
    · intro c' hc
      show Dict.get? (receiveNewAlert state (some alert)).alerts c' = _
      rw [hnext, Dict.get?_set_other _ _ _ _ hc]
      split_ifs
      · exact Dict.get?_set_other _ _ _ _ hc
      · rfl
    · have hfield : ∀ {β : Type} (f : AlertsState → β),
          (∀ s alerts, f { s with alerts := alerts } = f s) → f next = f state := by
        intro β f hf
        show f (receiveNewAlert state (some alert)) = f state
        rw [hnext]
        exact hf _ _
      exact ⟨hfield (fun s => s.lastDocs) (fun _ _ => rfl),
        hfield (fun s => s.selectedAlertId) (fun _ _ => rfl),
        hfield (fun s => s.downloadedClips) (fun _ _ => rfl),
        hfield (fun s => s.stats) (fun _ _ => rfl),
        hfield (fun s => s.status) (fun _ _ => rfl),
        hfield (fun s => s.error) (fun _ _ => rfl)⟩

/-- Witness for C20: an alert whose id is already cached for its child replaces the
cached one in place. -/
theorem receiveNewAlert_spec_witness :
    Dict.get?
      (receiveNewAlert
        { initialState with
          alerts := [("c", [[("id", JsVal.str "y")], [("id", JsVal.str "x")]])] }
        (some [("id", JsVal.str "x"), ("childId", JsVal.str "c")])).alerts "c" =
      some ([[("id", JsVal.str "y")]] ++
        [("id", JsVal.str "x"), ("childId", JsVal.str "c")] :: []) :=
  ((receiveNewAlert_spec
    { initialState with
      alerts := [("c", [[("id", JsVal.str "y")], [("id", JsVal.str "x")]])] }).2.2
    [("id", JsVal.str "x"), ("childId", JsVal.str "c")] (by decide)).2.1
    [[("id", JsVal.str "y")]] [("id", JsVal.str "x")] [] (by decide) (by decide) (by decide)

end AlertsState

/-! ## The children slice -/

namespace ChildrenState

/-- C21: reducing `removeChild.fulfilled(r)` gives the previous list of children
without the children whose id is `r`, the others in their order; when `r` was the
selected child the selection becomes the id of the first child that remains, or
`null` when none remains, and otherwise the selection is as it was. The status
becomes `succeeded` and `error` is not touched. -/
theorem removeChildFulfilled_spec (state : ChildrenState) (r : String) :
    let next := removeChildFulfilled state (JsVal.str r)
    next.children = state.children.filter (fun child => decide (Child.id child ≠ JsVal.str r)) ∧
    (∀ child, child ∈ next.children ↔ child ∈ state.children ∧ Child.id child ≠ JsVal.str r) ∧
    List.Sublist next.children state.children ∧
    (state.selectedChildId = JsVal.str r →
      next.selectedChildId =
        match next.children.head? with
        | some first => Child.id first
        | none => JsVal.null) ∧
    (state.selectedChildId ≠ JsVal.str r → next.selectedChildId = state.selectedChildId) ∧
    next.status = "succeeded" ∧ next.error = state.error := by
  intro next
  have hfilter : (fun child : Child => !(JsVal.strictEq (Child.id child) (JsVal.str r))) =
      (fun child => decide (Child.id child ≠ JsVal.str r)) := by
    funext child
    rw [JsVal.strictEq_str_right]
    simp
  have hchildren : next.children =
      state.children.filter (fun child => decide (Child.id child ≠ JsVal.str r)) := by
    show (removeChildFulfilled state (JsVal.str r)).children = _
    unfold removeChildFulfilled
    simp only [hfilter]
    split_ifs <;> rfl
  have hrest : next.status = "succeeded" ∧ next.error = state.error := by
    show (removeChildFulfilled state (JsVal.str r)).status = _ ∧
      (removeChildFulfilled state (JsVal.str r)).error = _
    simp only [removeChildFulfilled]
    split_ifs <;> exact ⟨rfl, rfl⟩
  refine ⟨hchildren, ?_, ?_, ?_, ?_, hrest⟩
  · intro child
    rw [hchildren, List.mem_filter]
    simp
  · rw [hchildren]
    exact List.filter_sublist _
  · intro hsel
    have hstrict : JsVal.strictEq state.selectedChildId (JsVal.str r) = true := by
      rw [JsVal.strictEq_str_right, hsel]
      simp
    rw [hchildren]
    show (removeChildFulfilled state (JsVal.str r)).selectedChildId = _
    unfold removeChildFulfilled
    simp only [hstrict, if_true, hfilter]
    cases state.children.filter (fun child => decide (Child.id child ≠ JsVal.str r)) <;> rfl
  · intro hsel
    have hstrict : JsVal.strictEq state.selectedChildId (JsVal.str r) = false := by
      rw [JsVal.strictEq_str_right]
      simpa using hsel
    show (removeChildFulfilled state (JsVal.str r)).selectedChildId = _
    unfold removeChildFulfilled
    simp only [hstrict, Bool.false_eq_true, if_false]

/-- Witness for C21: the selected child `a` is removed from the list `a`, `b`; the
selection moves to `b`. -/
theorem removeChildFulfilled_spec_witness :
    (removeChildFulfilled
      { initialState with
        children := [[("id", JsVal.str "a")], [("id", JsVal.str "b")]],
        selectedChildId := JsVal.str "a" }
      (JsVal.str "a")).selectedChildId = JsVal.str "b" :=
  ((removeChildFulfilled_spec
    { initialState with
      children := [[("id", JsVal.str "a")], [("id", JsVal.str "b")]],
      selectedChildId := JsVal.str "a" } "a").2.2.2.1 rfl).trans (by decide)

end ChildrenState

end ToxiGuard
